import Mathlib

/-!
# Verification of the legal-document pseudonymization pipeline

Shallow embedding of `pseudonymscript.py` (classes `NumberRandomizer`,
`Entity`, `DatePseudonymizer`, `OrganizationPseudonymizer`,
`AddressPseudonymizer`, `LegalPersonPseudonymizer`,
`CounterBasedPseudonymizer`, `GPEPseudonymizer`, `NumberExtractor`,
`PseudonymizationPipeline` and the `pseudonymize_text` entry point).

Conventions of the embedding:
* Python `datetime.date` objects are represented by their proleptic-Gregorian
  day number (an `Int`); `date₂ - date₁` (a `timedelta` in days) is integer
  subtraction, `date + timedelta(days=n)` is integer addition.  Parsing
  converts a (year, month, day) triple to its day number, formatting converts
  back; the two directions use the standard civil-calendar algorithms.
* Python floats are modelled as rationals (`ℚ`); none of the verified claims
  depends on binary floating-point rounding.
* Python's global `random` draws are explicit arguments: `random.randint` and
  `random.uniform` results are passed in (theorems quantify over them), and in
  the stateful pipeline a stream `ℕ → ℚ` of values in `[0,1)` plus a cursor
  models the seeded generator.
* Mutable object state (`replacement_cache`, counters, `date_mapping`,
  `name_to_role_registry`, `_current_entity`) is explicit state passing;
  Python `dict`s preserving insertion order are association lists where
  an update keeps the key's position and a fresh key is appended.
* All strings handled by the claims are ASCII, so `str.encode('utf-8')` is
  the list of character codes and `str.lower()` agrees with `String.toLower`.
-/

set_option maxRecDepth 20000

namespace Pseudo

/-! ## Data structures

`Entity` from the source, plus the `PersonEntity` subclass flattened into the
same structure: `isPersonEntity` records `isinstance(e, PersonEntity)`, and
`role`/`title`/`organization` are the subclass fields (`none` on plain
entities).  The unused `confidence` field is omitted.  Python's `end`
attribute is renamed `stop` (`end` is a Lean keyword). -/

structure Entity where
  start : Nat
  stop : Nat
  label : String
  text : String
  isPersonEntity : Bool := false
  role : Option String := none
  title : Option String := none
  organization : Option String := none
deriving DecidableEq, Repr

/-! ## Shared small helpers (Python string primitives) -/

/-- Python `\s` / `str.strip()` whitespace set. -/
def pyIsWs (c : Char) : Bool :=
  c = ' ' ∨ c = '\t' ∨ c = '\n' ∨ c = '\r' ∨ c = '\x0b' ∨ c = '\x0c'

/-- Python `str.strip()`. -/
def pyStrip (s : String) : String :=
  String.mk (((s.data.dropWhile pyIsWs).reverse.dropWhile pyIsWs).reverse)

/-- Python `str.split()` with no argument: split on whitespace runs,
dropping empty pieces. -/
def pySplitAux : List Char → List Char → List String → List String
  | [], cur, acc => (if cur.isEmpty then acc else String.mk cur.reverse :: acc)
  | c :: rest, cur, acc =>
    if pyIsWs c then
      pySplitAux rest [] (if cur.isEmpty then acc else String.mk cur.reverse :: acc)
    else
      pySplitAux rest (c :: cur) acc

def pySplit (s : String) : List String := (pySplitAux s.data [] []).reverse

/- The core `String.toLower`, `endsWith`, `replace`, `splitOn` and
`contains` are built on byte-position machinery that the kernel does not
reduce, so the embedding uses these character-list equivalents. -/

/-- `str.lower()` (`String.toLower` over the character list). -/
def strLower (s : String) : String := String.mk (s.data.map Char.toLower)

/-- `str.endswith(pat)`. -/
def strEndsWith (s pat : String) : Bool :=
  decide (s.data.drop (s.data.length - pat.data.length) = pat.data)

/-- `c in s` for a single character. -/
def strContainsChar (s : String) (c : Char) : Bool := s.data.any (fun x => x = c)

def strReplaceAux (needle repl : List Char) : Nat → List Char → List Char
  | 0, hay => hay
  | fuel + 1, hay =>
    match hay with
    | [] => []
    | c :: rest =>
      if ¬ needle.isEmpty ∧ hay.take needle.length = needle then
        repl ++ strReplaceAux needle repl fuel (hay.drop needle.length)
      else c :: strReplaceAux needle repl fuel rest

/-- `str.replace(old, new)`: left-to-right, non-overlapping, continuing
after each inserted replacement. -/
def strReplace (s old new : String) : String :=
  String.mk (strReplaceAux old.data new.data s.data.length s.data)

def strSplitOnAux (sep : List Char) : Nat → List Char → List Char → List String
  | 0, cur, _ => [String.mk cur.reverse]
  | _, cur, [] => [String.mk cur.reverse]
  | fuel + 1, cur, hay@(c :: rest) =>
    if ¬ sep.isEmpty ∧ hay.take sep.length = sep then
      String.mk cur.reverse :: strSplitOnAux sep fuel [] (hay.drop sep.length)
    else strSplitOnAux sep fuel (c :: cur) rest

/-- `str.split(sep)` for a non-empty separator. -/
def strSplitOn (s sep : String) : List String :=
  strSplitOnAux sep.data (s.data.length + 1) [] s.data

/-- Substring containment, Python's `needle in hay` (case-sensitive). -/
def subAt : List Char → List Char → Bool
  | [], _ => true
  | _ :: _, [] => false
  | n :: ns, h :: hs => n = h && subAt ns hs

def containsSub (hay needle : String) : Bool :=
  (List.range (hay.data.length + 1)).any (fun i => subAt needle.data (hay.data.drop i))

/-- One-character string from a letter index (`chr(ord("A") + k)`). -/
def letterChr (k : Nat) : String := String.push "" (Char.ofNat (65 + k))

/-- Python dict update `d[k] = v`: overwrite in place if the key exists
(keeping its position), otherwise append. -/
def dictInsert (m : List (String × String)) (k v : String) : List (String × String) :=
  if (m.lookup k).isSome then m.map (fun p => if p.1 = k then (k, v) else p)
  else m ++ [(k, v)]

/-! ## NumberRandomizer (`randomize_number`)

The two `random` draws are explicit: `choiceIdx` is the index picked by
`random.choice` into the candidate list, `mult` is the value returned by
`random.uniform(0.85, 1.15)`.  Floats are rationals. -/

/-- Python `int(value)`: truncation toward zero. -/
def pyTruncInt (q : ℚ) : ℤ := if 0 ≤ q then ⌊q⌋ else -⌊-q⌋

/-- The list `[x for x in range(1, 11) if x != int(value)]`. -/
def smallPool (value : ℚ) : List Nat :=
  (List.range' 1 10).filter (fun x => decide ((x : ℤ) ≠ pyTruncInt value))

/-- `NumberRandomizer.randomize_number`. -/
def randomizeNumber (value : ℚ) (preserveSmall : Bool) (choiceIdx : Nat) (mult : ℚ) : ℚ :=
  if preserveSmall = true ∧ 0 < value ∧ value ≤ 10 then
    (((smallPool value).getD choiceIdx 1 : Nat) : ℚ)
  else
    value * mult

/-! ## Stable sorting (Python `sorted`)

Python's `sorted` is a stable ascending sort; this structurally recursive
insertion sort (kernel-reducible, unlike `List.mergeSort`) places each
element before the later elements it compares equal to, which is exactly
stability. -/

def insertSorted {α : Type} (le : α → α → Bool) (x : α) : List α → List α
  | [] => [x]
  | y :: ys => if le x y then x :: y :: ys else y :: insertSorted le x ys

def pySorted {α : Type} (le : α → α → Bool) : List α → List α
  | [] => []
  | x :: xs => insertSorted le x (pySorted le xs)

/-! ## Overlap resolution (`PseudonymizationPipeline._remove_overlaps`) -/

/-- The fixed `priority_order` dict (`.get(label, 10)` supplies the default). -/
def priorityOrder : List (String × Nat) :=
  [("LEGAL_PERSON", 1), ("PERSON", 2), ("ORG", 3), ("GPE", 4), ("FAC", 5),
   ("ADDRESS", 6), ("MONEY", 7), ("NUMBER", 8), ("DATE", 9)]

def priorityOf (label : String) : Nat := (priorityOrder.lookup label).getD 10

/-- The inner `for i, accepted in enumerate(result)` loop of
`_remove_overlaps`: scan the accepted list for the first span overlapping the
candidate; replace it if the candidate has strictly higher priority, or equal
priority and strictly longer text, otherwise drop the candidate; a candidate
overlapping nothing is appended at the end. -/
def resolveAgainst (e : Entity) : List Entity → List Entity
  | [] => [e]
  | a :: rest =>
    if e.start < a.stop ∧ e.stop > a.start then
      if priorityOf e.label < priorityOf a.label then e :: rest
      else if priorityOf e.label = priorityOf a.label ∧ a.text.length < e.text.length then
        e :: rest
      else a :: rest
    else a :: resolveAgainst e rest

/-- `PseudonymizationPipeline._remove_overlaps`. -/
def removeOverlaps (entities : List Entity) : List Entity :=
  if entities.isEmpty then entities
  else
    (pySorted (fun a b => decide (a.start ≤ b.start)) entities).foldl
      (fun result e => resolveAgainst e result) []

/-! ## Dates (`DateExtractor` formats are consumed by `DatePseudonymizer`)

`datetime.date` ↔ day-number conversions (standard civil-calendar algorithms,
days counted from 1970-01-01), a faithful model of
`datetime.datetime.strptime` restricted to the eleven formats in
`DatePseudonymizer.date_formats`, and the interval-preserving mapping. -/

/-- `days_from_civil`: day number of a calendar date (1970-01-01 ↦ 0). -/
def toDays (y m d : Int) : Int :=
  let y' := if m ≤ 2 then y - 1 else y
  let era := Int.fdiv y' 400
  let yoe := y' - era * 400
  let mp := Int.emod (m + 9) 12
  let doy := Int.fdiv (153 * mp + 2) 5 + d - 1
  let doe := yoe * 365 + Int.fdiv yoe 4 - Int.fdiv yoe 100 + doy
  era * 146097 + doe - 719468

/-- `civil_from_days`: calendar date (y, m, d) of a day number. -/
def ofDays (z : Int) : Int × Int × Int :=
  let z' := z + 719468
  let era := Int.fdiv z' 146097
  let doe := z' - era * 146097
  let yoe := Int.fdiv (doe - Int.fdiv doe 1460 + Int.fdiv doe 36524 - Int.fdiv doe 146096) 365
  let y := yoe + era * 400
  let doy := doe - (365 * yoe + Int.fdiv yoe 4 - Int.fdiv yoe 100)
  let mp := Int.fdiv (5 * doy + 2) 153
  let d := doy - Int.fdiv (153 * mp + 2) 5 + 1
  let m := if mp < 10 then mp + 3 else mp - 9
  (if m ≤ 2 then y + 1 else y, m, d)

def isLeapYear (y : Nat) : Bool := y % 4 = 0 ∧ (y % 100 ≠ 0 ∨ y % 400 = 0)

def daysInMonth (y m : Nat) : Nat :=
  if m = 2 then (if isLeapYear y then 29 else 28)
  else if m = 4 ∨ m = 6 ∨ m = 9 ∨ m = 11 then 30
  else 31

def fullMonthNames : List String :=
  ["January", "February", "March", "April", "May", "June",
   "July", "August", "September", "October", "November", "December"]

def abbrMonthNames : List String :=
  ["Jan", "Feb", "Mar", "Apr", "May", "Jun", "Jul", "Aug", "Sep", "Oct", "Nov", "Dec"]

/-- Tokens of a `strptime` format string: `%d`, `%B`, `%b`, `%m`, `%Y`,
a literal character, or a whitespace run (CPython compiles format whitespace
to `\s+`). -/
inductive FmtTok where
  | dayNum
  | monthFull
  | monthAbbr
  | monthNum
  | year4
  | litCh (c : Char)
  | wsp
deriving DecidableEq, Repr

/-- The eleven formats of `DatePseudonymizer.date_formats`, tokenised:
`%d %B %Y`, `%B %d %Y`, `%B %d, %Y`, `%d %b %Y`, `%b %d %Y`, `%b %d, %Y`,
`%Y-%m-%d`, `%d/%m/%Y`, `%m/%d/%Y`, `%d-%m-%Y`, `%m-%d-%Y`. -/
def dateFormats : List (List FmtTok) :=
  [[.dayNum, .wsp, .monthFull, .wsp, .year4],
   [.monthFull, .wsp, .dayNum, .wsp, .year4],
   [.monthFull, .wsp, .dayNum, .litCh ',', .wsp, .year4],
   [.dayNum, .wsp, .monthAbbr, .wsp, .year4],
   [.monthAbbr, .wsp, .dayNum, .wsp, .year4],
   [.monthAbbr, .wsp, .dayNum, .litCh ',', .wsp, .year4],
   [.year4, .litCh '-', .monthNum, .litCh '-', .dayNum],
   [.dayNum, .litCh '/', .monthNum, .litCh '/', .year4],
   [.monthNum, .litCh '/', .dayNum, .litCh '/', .year4],
   [.dayNum, .litCh '-', .monthNum, .litCh '-', .year4],
   [.monthNum, .litCh '-', .dayNum, .litCh '-', .year4]]

def digitVal (c : Char) : Nat := c.toNat - 48

/-- CPython `%d` regex `(3[01]|[12]\d|0[1-9]|[1-9])`: a two-digit value in
01..31, else one digit 1..9.  (The following format token is never a digit,
so the greedy two-digit choice never needs backtracking.) -/
def parseDay2 : List Char → Option (Nat × List Char)
  | c1 :: c2 :: rest =>
    if c1.isDigit ∧ c2.isDigit then
      let v := 10 * digitVal c1 + digitVal c2
      if 1 ≤ v ∧ v ≤ 31 then some (v, rest)
      else if 1 ≤ digitVal c1 ∧ digitVal c1 ≤ 9 then some (digitVal c1, c2 :: rest)
      else none
    else if c1.isDigit ∧ 1 ≤ digitVal c1 then some (digitVal c1, c2 :: rest)
    else none
  | [c1] => if c1.isDigit ∧ 1 ≤ digitVal c1 then some (digitVal c1, []) else none
  | [] => none

/-- CPython `%m` regex `(1[0-2]|0[1-9]|[1-9])`. -/
def parseMonth2 : List Char → Option (Nat × List Char)
  | c1 :: c2 :: rest =>
    if c1.isDigit ∧ c2.isDigit then
      let v := 10 * digitVal c1 + digitVal c2
      if 1 ≤ v ∧ v ≤ 12 then some (v, rest)
      else if 1 ≤ digitVal c1 ∧ digitVal c1 ≤ 9 then some (digitVal c1, c2 :: rest)
      else none
    else if c1.isDigit ∧ 1 ≤ digitVal c1 then some (digitVal c1, c2 :: rest)
    else none
  | [c1] => if c1.isDigit ∧ 1 ≤ digitVal c1 then some (digitVal c1, []) else none
  | [] => none

/-- CPython `%Y` regex `(\d\d\d\d)`: exactly four digits. -/
def parseYear4 : List Char → Option (Nat × List Char)
  | c1 :: c2 :: c3 :: c4 :: rest =>
    if c1.isDigit ∧ c2.isDigit ∧ c3.isDigit ∧ c4.isDigit then
      some (1000 * digitVal c1 + 100 * digitVal c2 + 10 * digitVal c3 + digitVal c4, rest)
    else none
  | _ => none

def stripCI (name : String) (cs : List Char) : Option (List Char) :=
  let n := name.data.map Char.toLower
  if (cs.take n.length).map Char.toLower = n then some (cs.drop n.length) else none

/-- Month-name alternation (case-insensitive; CPython tries longer names
first, which `findSome?` over the name list ordered with distinct names
reproduces since no full month name is a prefix of another). -/
def parseMonthName (names : List String) (cs : List Char) : Option (Nat × List Char) :=
  (names.zip (List.range' 1 12)).findSome? fun p =>
    (stripCI p.1 cs).map (fun rest => (p.2, rest))

def parseWsp : List Char → Option (List Char)
  | c :: rest => if pyIsWs c then some (rest.dropWhile pyIsWs) else none
  | [] => none

/-- Run one tokenised format over the character list, `strptime`-style
(the whole string must be consumed). -/
def runFmt : List FmtTok → List Char → Nat → Nat → Nat → Option (Nat × Nat × Nat)
  | [], [], d, m, y => some (y, m, d)
  | [], _ :: _, _, _, _ => none
  | .dayNum :: toks, cs, _, m, y =>
    match parseDay2 cs with
    | some (v, rest) => runFmt toks rest v m y
    | none => none
  | .monthNum :: toks, cs, d, _, y =>
    match parseMonth2 cs with
    | some (v, rest) => runFmt toks rest d v y
    | none => none
  | .monthFull :: toks, cs, d, _, y =>
    match parseMonthName fullMonthNames cs with
    | some (v, rest) => runFmt toks rest d v y
    | none => none
  | .monthAbbr :: toks, cs, d, _, y =>
    match parseMonthName abbrMonthNames cs with
    | some (v, rest) => runFmt toks rest d v y
    | none => none
  | .year4 :: toks, cs, d, m, _ =>
    match parseYear4 cs with
    | some (v, rest) => runFmt toks rest d m v
    | none => none
  | .litCh c :: toks, c' :: cs, d, m, y =>
    if c = c' then runFmt toks cs d m y else none
  | .litCh _ :: _, [], _, _, _ => none
  | .wsp :: toks, cs, d, m, y =>
    match parseWsp cs with
    | some rest => runFmt toks rest d m y
    | none => none

/-- `datetime.date(year, month, day)` validity (the constructor raises
`ValueError`, caught by `_parse_date`, when the day is out of range for the
month or the year is outside `MINYEAR..MAXYEAR`). -/
def validDate (y m d : Nat) : Bool :=
  1 ≤ y ∧ 1 ≤ d ∧ d ≤ daysInMonth y m

/-- `DatePseudonymizer._parse_date`: try the formats in order, first success
wins; the result is the parsed date's day number. -/
def parseDate (s : String) : Option Int :=
  dateFormats.findSome? fun fmt =>
    match runFmt fmt s.data 0 0 0 with
    | some (y, m, d) =>
      if validDate y m d then some (toDays (y : Int) (m : Int) (d : Int)) else none
    | none => none

/-- `datetime.date(2010, 1, 1)`, the fixed anchor of the date mapping. -/
def dateAnchor : Int := toDays 2010 1 1

/-- The parsed dates collected by `DatePseudonymizer.prepare`: the `DATE`
entities whose text parses. -/
def parsedDatesOf (allEntities : List Entity) : List Int :=
  (allEntities.filter (fun e => e.label = "DATE")).filterMap (fun e => parseDate e.text)

/-- `sorted(list(set(parsed_dates)))`. -/
def uniqueDatesOf (parsedDates : List Int) : List Int :=
  pySorted (fun a b => decide (a ≤ b)) parsedDates.dedup

/-- The mapping built by `DatePseudonymizer.prepare` from the parsed dates:
`_create_single_date_mapping` for one distinct date or
`_create_interval_preserving_mapping` for several (both anchored at
`date(2010, 1, 1) + timedelta(days=random.randint(-7300, 7300))`). -/
def dateMappingOfParsed (parsedDates : List Int) (randomDays : Int) : List (Int × Int) :=
  if parsedDates.isEmpty then []
  else if (uniqueDatesOf parsedDates).length = 1 then
    [((uniqueDatesOf parsedDates).headD 0, dateAnchor + randomDays)]
  else
    (uniqueDatesOf parsedDates).map
      (fun d => (d, (dateAnchor + randomDays) + (d - (uniqueDatesOf parsedDates).headD 0)))

/-- `DatePseudonymizer.prepare` with the `random.randint(-7300, 7300)` draw
passed in as `randomDays`.  The result is the `date_mapping` dict as an
association list from original day number to replacement day number. -/
def datePrepare (allEntities : List Entity) (randomDays : Int) : List (Int × Int) :=
  let dateEntities := allEntities.filter (fun e => e.label = "DATE")
  if dateEntities.isEmpty then []
  else dateMappingOfParsed (dateEntities.filterMap (fun e => parseDate e.text)) randomDays

def natPad (width n : Nat) : String :=
  let s := toString n
  String.mk (List.replicate (width - s.length) '0') ++ s

/-- `date.strftime` for the five format strings used by
`_format_date_like_original` (month values are always 1..12 here). -/
def strfDate (fmt : String) (z : Int) : String :=
  let c := ofDays z
  let y := c.1.toNat
  let m := c.2.1.toNat
  let d := c.2.2.toNat
  if fmt = "%d %B %Y" then
    natPad 2 d ++ " " ++ (fullMonthNames.getD (m - 1) "") ++ " " ++ natPad 4 y
  else if fmt = "%d %b %Y" then
    natPad 2 d ++ " " ++ (abbrMonthNames.getD (m - 1) "") ++ " " ++ natPad 4 y
  else if fmt = "%Y-%m-%d" then
    natPad 4 y ++ "-" ++ natPad 2 m ++ "-" ++ natPad 2 d
  else if fmt = "%d-%m-%Y" then
    natPad 2 d ++ "-" ++ natPad 2 m ++ "-" ++ natPad 4 y
  else
    natPad 2 d ++ "/" ++ natPad 2 m ++ "/" ++ natPad 4 y

/-- `DatePseudonymizer._format_date_like_original`. -/
def formatDateLikeOriginal (dateObj : Int) (originalStr : String) : String :=
  if fullMonthNames.any (fun mn => containsSub originalStr mn) then
    strfDate "%d %B %Y" dateObj
  else if abbrMonthNames.any (fun mn => containsSub originalStr mn) then
    strfDate "%d %b %Y" dateObj
  else if strContainsChar originalStr '-' then
    if (originalStr.take 2 = "20") ∨ (originalStr.take 2 = "19") then
      strfDate "%Y-%m-%d" dateObj
    else
      strfDate "%d-%m-%Y" dateObj
  else if strContainsChar originalStr '/' then
    strfDate "%d/%m/%Y" dateObj
  else
    strfDate "%d %B %Y" dateObj

/-- `DatePseudonymizer.pseudonymize`: look the parsed date up in the prepared
mapping; on a parse failure or a missing key return the sentinel string. -/
def datePseudonymize (dateMapping : List (Int × Int)) (originalText : String) : String :=
  match parseDate (pyStrip originalText) with
  | some parsed =>
    match dateMapping.lookup parsed with
    | some shifted => formatDateLikeOriginal shifted originalText
    | none => "[UNPARSEABLE DATE: " ++ originalText ++ "]"
  | none => "[UNPARSEABLE DATE: " ++ originalText ++ "]"

/-- Convenience constructor for a plain entity (no role fields). -/
def mkEntity (start stop : Nat) (label text : String) : Entity :=
  { start := start, stop := stop, label := label, text := text }

/-! ## Organizations (`OrganizationPseudonymizer`) -/

/-- `OrganizationPseudonymizer.corporate_suffixes`. -/
def corporateSuffixes : List String :=
  ["Pte Ltd", "Pvt Ltd", "Private Limited", "Ltd", "Limited",
   "LLP", "LLC", "PLLC", "LP", "L.P.", "L.L.C.", "L.L.P.",
   "Inc", "Incorporated", "Corp", "Corporation",
   "Co", "Company", "Holdings", "Group", "PLC", "plc",
   "AG", "GmbH", "S.A.", "SAS", "SARL", "B.V.", "N.V.",
   "Pty Ltd", "Pty Limited"]

/-- `sorted(self.corporate_suffixes, key=len, reverse=True)`: stable sort by
length, longest first. -/
def sortedSuffixes : List String :=
  pySorted (fun a b => decide (b.length ≤ a.length)) corporateSuffixes

/-- `re.sub(r'[.,;:]+\s*$', '', text)`: drop one trailing run of
punctuation-then-whitespace, if present. -/
def stripTrailingPunct (s : String) : String :=
  let rev := s.data.reverse
  let r1 := rev.dropWhile pyIsWs
  let r2 := r1.dropWhile (fun c => c = '.' ∨ c = ',' ∨ c = ';' ∨ c = ':')
  if r2.length < r1.length then String.mk r2.reverse else s

/-- The `text.strip()` / `re.sub(r'[.,;:]+\s*$', '', ...)` cleaning step of
`_extract_corporate_suffix`. -/
def cleanedOrgText (text : String) : String := stripTrailingPunct (pyStrip text)

/-- `OrganizationPseudonymizer._extract_corporate_suffix`: first
(longest-first) suffix matching case-insensitively at the end of the cleaned
text, returned verbatim from the cleaned text. -/
def extractCorporateSuffix (text : String) : String :=
  match sortedSuffixes.find?
      (fun sfx => strEndsWith (strLower (cleanedOrgText text)) (strLower sfx)) with
  | some sfx => (cleanedOrgText text).drop ((cleanedOrgText text).length - sfx.length)
  | none => ""

/-- `OrganizationPseudonymizer` mutable state (`self.counter` and the base
class `replacement_cache`). -/
structure OrgState where
  counter : Nat := 0
  cache : List (String × String) := []
deriving DecidableEq, Repr

/-- `OrganizationPseudonymizer.pseudonymize`. -/
def orgPseudonymize (st : OrgState) (originalText : String) : String × OrgState :=
  let counter := st.counter + 1
  let letter := letterChr ((counter - 1) % 26)
  let suffix := extractCorporateSuffix originalText
  (if suffix ≠ "" then "ORG " ++ letter ++ " " ++ suffix else "ORG " ++ letter,
   { st with counter := counter })

/-- Base-class `get_replacement` specialised to the organization
pseudonymizer. -/
def orgGetReplacement (st : OrgState) (originalText : String) : String × OrgState :=
  match st.cache.lookup originalText with
  | some v => (v, st)
  | none =>
    let (r, st') := orgPseudonymize st originalText
    (r, { st' with cache := st'.cache ++ [(originalText, r)] })

/-! ## SHA-256 (`hashlib.sha256(...).hexdigest()`)

A complete SHA-256 over a byte list, shaped for shallow kernel reduction:
the 64 rounds recurse over the round-constant list with the schedule window
and working state as explicit machine-word (`Nat` mod 2^32) arguments. -/

def M32 : Nat := 4294967296

/-- The 64 SHA-256 round constants (the first 32 bits of the fractional
parts of the cube roots of the first 64 primes), as decimal machine words. -/
def shaK : List Nat :=
  [1116352408, 1899447441, 3049323471, 3921009573, 961987163, 1508970993,
   2453635748, 2870763221, 3624381080, 310598401, 607225278, 1426881987,
   1925078388, 2162078206, 2614888103, 3248222580, 3835390401, 4022224774,
   264347078, 604807628, 770255983, 1249150122, 1555081692, 1996064986,
   2554220882, 2821834349, 2952996808, 3210313671, 3336571891, 3584528711,
   113926993, 338241895, 666307205, 773529912, 1294757372, 1396182291,
   1695183700, 1986661051, 2177026350, 2456956037, 2730485921, 2820302411,
   3259730800, 3345764771, 3516065817, 3600352804, 4094571909, 275423344,
   430227734, 506948616, 659060556, 883997877, 958139571, 1322822218,
   1537002063, 1747873779, 1955562222, 2024104815, 2227730452, 2361852424,
   2428436474, 2756734187, 3204031479, 3329325298]

/-- The eight SHA-256 initial hash values (the first 32 bits of the
fractional parts of the square roots of the first 8 primes). -/
def shaH0 : List Nat :=
  [1779033703, 3144134277, 1013904242, 2773480762, 1359893119, 2600822924,
   528734635, 1541459225]

def rotr (n x : Nat) : Nat := ((x >>> n) ||| (x <<< (32 - n))) % M32

def wnot (x : Nat) : Nat := (M32 - 1) - x

/-- SHA-256 message padding (bytes → bytes, length a multiple of 64). -/
def shaPad (msg : List Nat) : List Nat :=
  let len := msg.length
  let zeros := (55 + 64 - len % 64) % 64
  let lenBits := 8 * len
  msg ++ [0x80] ++ List.replicate zeros 0 ++
    (List.range 8).map (fun i => (lenBits >>> (8 * (7 - i))) % 256)

/-- Big-endian bytes to 32-bit words. -/
def shaWords : List Nat → List Nat
  | b0 :: b1 :: b2 :: b3 :: rest =>
    (((b0 * 256 + b1) * 256 + b2) * 256 + b3) :: shaWords rest
  | _ => []

/-- The 64 compression rounds; `w0..w15` is the rolling message-schedule
window, `a..h` the working state, `ks` the remaining round constants. -/
def shaRounds (ks : List Nat)
    (w0 w1 w2 w3 w4 w5 w6 w7 w8 w9 w10 w11 w12 w13 w14 w15 : Nat)
    (a b c d e f g h : Nat) : Nat × Nat × Nat × Nat × Nat × Nat × Nat × Nat :=
  match ks with
  | [] => (a, b, c, d, e, f, g, h)
  | k :: ks =>
    let S1 := (rotr 6 e) ^^^ (rotr 11 e) ^^^ (rotr 25 e)
    let ch := (e &&& f) ^^^ ((wnot e) &&& g)
    let t1 := (h + S1 + ch + k + w0) % M32
    let S0 := (rotr 2 a) ^^^ (rotr 13 a) ^^^ (rotr 22 a)
    let mj := (a &&& b) ^^^ (a &&& c) ^^^ (b &&& c)
    let t2 := (S0 + mj) % M32
    let s0 := (rotr 7 w1) ^^^ (rotr 18 w1) ^^^ (w1 >>> 3)
    let s1 := (rotr 17 w14) ^^^ (rotr 19 w14) ^^^ (w14 >>> 10)
    let w16 := (w0 + s0 + w9 + s1) % M32
    shaRounds ks w1 w2 w3 w4 w5 w6 w7 w8 w9 w10 w11 w12 w13 w14 w15 w16
      ((t1 + t2) % M32) a b c ((d + t1) % M32) e f g

def shaCompress (h : List Nat) (ws : List Nat) : List Nat :=
  match h, ws with
  | [h0, h1, h2, h3, h4, h5, h6, h7],
    [w0, w1, w2, w3, w4, w5, w6, w7, w8, w9, w10, w11, w12, w13, w14, w15] =>
    match shaRounds shaK w0 w1 w2 w3 w4 w5 w6 w7 w8 w9 w10 w11 w12 w13 w14 w15
        h0 h1 h2 h3 h4 h5 h6 h7 with
    | (a, b, c, d, e, f, g, h) =>
      [(h0 + a) % M32, (h1 + b) % M32, (h2 + c) % M32, (h3 + d) % M32,
       (h4 + e) % M32, (h5 + f) % M32, (h6 + g) % M32, (h7 + h) % M32]
  | h, _ => h

def shaBlocks : Nat → List Nat → List Nat → List Nat
  | 0, h, _ => h
  | _, h, [] => h
  | fuel + 1, h, ws => shaBlocks fuel (shaCompress h (ws.take 16)) (ws.drop 16)

/-- SHA-256 of a byte list, as the eight 32-bit state words. -/
def sha256 (msg : List Nat) : List Nat :=
  shaBlocks ((shaWords (shaPad msg)).length / 16 + 1) shaH0 (shaWords (shaPad msg))

def hexChar (n : Nat) : Char :=
  if n < 10 then Char.ofNat (48 + n) else Char.ofNat (87 + n)

def wordHex (w : Nat) : List Char :=
  (List.range 8).map (fun i => hexChar ((w >>> (4 * (7 - i))) % 16))

/-- `hashlib.sha256(bytes).hexdigest()`: 64 lowercase hex characters. -/
def hexdigest (msg : List Nat) : String :=
  String.mk ((sha256 msg).flatMap wordHex)

/-- UTF-8 encoding of the ASCII strings handled here. -/
def strBytes (s : String) : List Nat := s.data.map Char.toNat

/-- `int(hexstring, 16)`. -/
def hexVal (s : String) : Nat :=
  s.data.foldl (fun acc c =>
    16 * acc + (if c.isDigit then digitVal c else c.toNat - 87)) 0

/-! ## Addresses (`AddressPseudonymizer`) -/

def collapseWsAux : List Char → Bool → List Char
  | [], _ => []
  | c :: rest, inWs =>
    if pyIsWs c then
      if inWs then collapseWsAux rest true else ' ' :: collapseWsAux rest true
    else c :: collapseWsAux rest false

/-- `re.sub(r'\s+', ' ', s)`. -/
def collapseWs (s : String) : String := String.mk (collapseWsAux s.data false)

/-- The replacement table of `_normalize_address`, applied in dict order. -/
def addressReplacements : List (String × String) :=
  [(" st ", " street "), (" rd ", " road "), (" ave ", " avenue "),
   (" dr ", " drive "), (" ln ", " lane "), (" blvd ", " boulevard "),
   ("centre", "center"), (",", ""), (".", "")]

/-- `AddressPseudonymizer._normalize_address`. -/
def normalizeAddress (address : String) : String :=
  let normalized := collapseWs (pyStrip (strLower address))
  pyStrip (addressReplacements.foldl (fun s p => strReplace s p.1 p.2) normalized)

/-- `AddressPseudonymizer.__init__` default salt. -/
def addressSalt : String := "legal_doc_addresses_2024"

/-- `AddressPseudonymizer.pseudonymize`: salted SHA-256 of the normalized
address, first 6 hex characters mod 1,000,000, zero-padded to 6 digits. -/
def addressPseudonymize (originalText : String) : String :=
  let normalized := normalizeAddress originalText
  let hashHex := hexdigest (strBytes (addressSalt ++ ":" ++ normalized))
  let code := natPad 6 (hexVal (hashHex.take 6) % 1000000)
  "[ADDRESS " ++ code ++ "]"

/-! ## Legal persons (`LegalPersonPseudonymizer`)

The extractor side is consumed as candidate `Entity` values (its regex layer
produces `PersonEntity(text, role, ...)` spans); `_normalize_role` is embedded
because it fixes the `role` field stored on those spans. -/

/-- `LegalPersonExtractor._normalize_role` role_mappings table. -/
def extractorRoleMappings : List (String × String) :=
  [("atty", "attorney"), ("counsel", "attorney"), ("lawyer", "attorney"),
   ("mgr", "manager"), ("mgmt", "management"), ("chmn", "chairman"),
   ("chrmn", "chairman"), ("pres", "president"), ("v.p.", "vice president"),
   ("vp", "vice president")]

/-- `re.sub(r'^(the\s+|a\s+|an\s+)', '', s)` (alternatives tried in order). -/
def stripLeadingArticle (s : String) : String :=
  match
    (["the", "a", "an"].findSome? fun art =>
      match stripCI art s.data with
      | some rest =>
        if rest.headD 'x' |> pyIsWs then some (rest.dropWhile pyIsWs) else none
      | none => none)
  with
  | some rest => String.mk rest
  | none => s

/-- `LegalPersonExtractor._normalize_role`. -/
def normalizeRoleExtractor (role : String) : String :=
  let roleClean := stripLeadingArticle (pyStrip (strLower role))
  (extractorRoleMappings.lookup roleClean).getD roleClean

/- Note: `stripLeadingArticle` matches case-insensitively via `stripCI`, while
the source regex is case-sensitive; its callers lowercase the input first, so
the two agree. -/

/-- `LegalPersonPseudonymizer._normalize_role_for_pseudonym` role_mappings. -/
def pseudonymRoleMappings : List (String × String) :=
  [("plaintiff", "Plaintiff"), ("defendant", "Defendant"), ("attorney", "Counsel"),
   ("lawyer", "Counsel"), ("counsel", "Counsel"), ("partner", "Partner"),
   ("ceo", "CEO"), ("president", "President"), ("director", "Director"),
   ("judge", "Judge"), ("witness", "Witness"), ("buyer", "Buyer"),
   ("seller", "Seller"), ("grantor", "Grantor"), ("grantee", "Grantee"),
   ("trustee", "Trustee")]

/-- `_normalize_role_for_pseudonym`: unmapped roles fall back to "Person". -/
def normalizeRoleForPseudonym (role : String) : String :=
  (pseudonymRoleMappings.lookup (pyStrip (strLower role))).getD "Person"

def legalHashSalt : String := "legal_persons_2024"

/-- `LegalPersonPseudonymizer._generate_hash_based_pseudonym`. -/
def generateHashBasedPseudonym (name role : String) : String :=
  let roleNormalized := normalizeRoleForPseudonym role
  let nameNormalized := pyStrip (strLower name)
  let hashHex := hexdigest (strBytes (legalHashSalt ++ ":" ++ nameNormalized ++ ":" ++ roleNormalized))
  let letterIndex := hexVal (hashHex.take 2) % 26
  roleNormalized ++ " " ++ letterChr letterIndex

/-- One `[A-Z][a-z]+` word: an uppercase letter then one or more lowercase
letters; returns the word and the remaining characters. -/
def upperWord : List Char → Option (List Char × List Char)
  | c :: rest =>
    if c.isUpper then
      let lows := rest.takeWhile (fun x => x.isLower)
      if lows.isEmpty then none else some (c :: lows, rest.drop lows.length)
    else none
  | [] => none

/-- `(?:\s+[A-Z][a-z]+)*` continuation: greedily extend with
whitespace-separated capitalized words.  Nothing that can follow this group
in the source patterns is an uppercase word, so the greedy match needs no
backtracking. -/
def nameSeqAux : Nat → List Char → List Char → List Char × List Char
  | 0, acc, cs => (acc, cs)
  | fuel + 1, acc, cs =>
    match parseWsp cs with
    | some rest =>
      match upperWord rest with
      | some (w, rest') =>
        nameSeqAux fuel (acc ++ (cs.take (cs.length - rest.length)) ++ w) rest'
      | none => (acc, cs)
    | none => (acc, cs)

/-- `([A-Z][a-z]+(?:\s+[A-Z][a-z]+)*)` anchored at the head of the input. -/
def nameSeq (cs : List Char) : Option (List Char × List Char) :=
  match upperWord cs with
  | some (w, rest) => some (nameSeqAux rest.length w rest)
  | none => none

/-- The `\b(?:plaintiff|defendant|dr\.?|mr\.?|mrs\.?|ms\.?)` alternation
(with `re.IGNORECASE`): try each keyword in order at the current position,
greedy on the optional dot, and require `\s+` plus a capitalized name after
it.  Returns the name group. -/
def roleNameKeys : List (String × Bool) :=
  [("plaintiff", false), ("defendant", false), ("dr", true), ("mr", true),
   ("mrs", true), ("ms", true)]

def wordChar (c : Char) : Bool := c.isAlphanum ∨ c = '_'

def roleNameAfter (cs : List Char) : Option String :=
  (match parseWsp cs with
   | some rest => (nameSeq rest).map (fun p => String.mk p.1)
   | none => none)

def roleNameAt (cs : List Char) : Option String :=
  roleNameKeys.findSome? fun k =>
    match stripCI k.1 cs with
    | some rest =>
      if k.2 then
        match rest with
        | '.' :: rest' =>
          match roleNameAfter rest' with
          | some n => some n
          | none => roleNameAfter rest
        | _ => roleNameAfter rest
      else roleNameAfter rest
    | none => none

def roleNameSearchAux : List Char → Option Char → Option String
  | [], _ => none
  | c :: rest, prev =>
    let boundary := match prev with
      | none => true
      | some p => ¬ wordChar p
    match (if boundary then roleNameAt (c :: rest) else none) with
    | some n => some n
    | none => roleNameSearchAux rest (some c)

/-- `LegalPersonPseudonymizer._extract_name_from_entity_text`:
`re.match(r'^([A-Z][a-z]+(?:\s+[A-Z][a-z]+)*)', text)` first, then
`re.search(r'\b(?:plaintiff|defendant|dr\.?|...)\s+([A-Z][a-z]+...)', text,
re.IGNORECASE)`. -/
def extractNameFromEntityText (entityText : String) : Option String :=
  match nameSeq entityText.data with
  | some (w, _) => some (pyStrip (String.mk w))
  | none =>
    match roleNameSearchAux entityText.data none with
    | some n => some (pyStrip n)
    | none => none

/-- `LegalPersonPseudonymizer._names_likely_same_person`. -/
def namesLikelySamePerson (name1 name2 : String) : Bool :=
  let p1 := pySplit name1
  let p2 := pySplit name2
  if name1 = name2 then true
  else if 2 ≤ p1.length ∧ 2 ≤ p2.length ∧
      p1.headD "" = p2.headD "" ∧ p1.getLastD "" = p2.getLastD "" then true
  else if 2 ≤ p1.length ∧ 2 ≤ p2.length then
    let shorter := if p1.length ≤ p2.length then p1 else p2
    let longer := if p1.length ≤ p2.length then p2 else p1
    shorter.all (fun part => part ∈ longer)
  else false

/-- `LegalPersonPseudonymizer._find_matching_role` over the
`name_to_role_registry` association list (dict iteration order). -/
def findMatchingRole (registry : List (String × String)) (bareName : String) : Option String :=
  let bareLower := pyStrip (strLower bareName)
  match registry.lookup bareLower with
  | some role => some role
  | none =>
    registry.findSome? fun p =>
      if namesLikelySamePerson bareLower p.1 ∨ namesLikelySamePerson p.1 bareLower then
        some p.2
      else none

/-- Mutable state of `LegalPersonPseudonymizer` (`use_hash_consistency`,
`role_counters`, `name_to_role_registry`, `replacement_cache`, and the
`_current_entity` attribute poked in by the pipeline). -/
structure LegalState where
  useHashConsistency : Bool := true
  roleCounters : List (String × Nat) := []
  registry : List (String × String) := []
  cache : List (String × String) := []
  currentEntity : Option Entity := none
deriving DecidableEq, Repr

/-- `LegalPersonPseudonymizer.prepare`: build the name→role registry from the
role-qualified entities, then pre-seed the cache for bare `PERSON` entities
that match a registered name. -/
def legalPrepare (st : LegalState) (allEntities : List Entity) : LegalState :=
  let legalPersons := allEntities.filter (fun e => e.label = "LEGAL_PERSON")
  let barePersons := allEntities.filter (fun e => e.label = "PERSON")
  let registry := legalPersons.foldl
    (fun reg e =>
      if e.isPersonEntity ∧ (e.role.getD "") ≠ "" then
        match extractNameFromEntityText e.text with
        | some name =>
          if name ≠ "" then dictInsert reg (strLower name) (e.role.getD "") else reg
        | none => reg
      else reg)
    []
  let cache := barePersons.foldl
    (fun cache e =>
      match findMatchingRole registry e.text with
      | some matchedRole =>
        dictInsert cache e.text (generateHashBasedPseudonym e.text matchedRole)
      | none => cache)
    st.cache
  { st with registry := registry, cache := cache }

/-- `LegalPersonPseudonymizer._generate_counter_based_pseudonym`. -/
def generateCounterBasedPseudonym (st : LegalState) (role : String) : String × LegalState :=
  let roleNormalized := normalizeRoleForPseudonym role
  let n := (st.roleCounters.lookup roleNormalized).getD 0 + 1
  let counters :=
    if (st.roleCounters.lookup roleNormalized).isSome then
      st.roleCounters.map (fun p => if p.1 = roleNormalized then (p.1, n) else p)
    else st.roleCounters ++ [(roleNormalized, n)]
  (roleNormalized ++ " " ++ letterChr ((n - 1) % 26), { st with roleCounters := counters })

/-- `LegalPersonPseudonymizer._parse_person_info`: the first of two regex
searches, `(name)\s*\(\s*([^)]+)\s*\)` then `(name),\s+([^,]+)`; returns
(name, role) with the role stripped. -/
def parenInfoAt (cs : List Char) : Option (String × String) :=
  match nameSeq cs with
  | some (w, rest) =>
    let rest := rest.dropWhile pyIsWs
    match rest with
    | '(' :: rest' =>
      let inner := rest'.takeWhile (fun c => c ≠ ')')
      let after := rest'.drop inner.length
      if inner.length ≥ 1 ∧ after.headD ' ' = ')' then
        some (String.mk w, pyStrip (String.mk inner))
      else none
    | _ => none
  | none => none

def commaInfoAt (cs : List Char) : Option (String × String) :=
  match nameSeq cs with
  | some (w, rest) =>
    match rest with
    | ',' :: rest' =>
      match parseWsp rest' with
      | some rest'' =>
        let inner := rest''.takeWhile (fun c => c ≠ ',')
        if inner.length ≥ 1 then some (String.mk w, pyStrip (String.mk inner))
        else none
      | none => none
    | _ => none
  | none => none

def searchPairAux (f : List Char → Option (String × String)) :
    List Char → Option (String × String)
  | [] => none
  | c :: rest =>
    match f (c :: rest) with
    | some p => some p
    | none => searchPairAux f rest

/-- `_parse_person_info` (the `\s*` between the name group and `(`/`,` is
whitespace already excluded from the greedy name group). -/
def parsePersonInfo (text : String) : Option (String × String) :=
  match searchPairAux parenInfoAt text.data with
  | some p => some p
  | none => searchPairAux commaInfoAt text.data

/-- `LegalPersonPseudonymizer._generate_role_based_pseudonym`. -/
def generateRoleBasedPseudonym (st : LegalState) (name role : String) : String × LegalState :=
  let role := if role = "" then "person" else role
  if st.useHashConsistency then
    let nameForHash := if name = "" then "unknown" else name
    (generateHashBasedPseudonym nameForHash role, st)
  else generateCounterBasedPseudonym st role

/-- `LegalPersonPseudonymizer._generate_role_based_pseudonym_from_entity`. -/
def generateRoleBasedPseudonymFromEntity (st : LegalState) (e : Entity) : String × LegalState :=
  let role := if (e.role.getD "") ≠ "" then e.role.getD "" else "person"
  if st.useHashConsistency then
    let nameForHash := ((extractNameFromEntityText e.text).filter (fun n => n ≠ "")).getD e.text
    (generateHashBasedPseudonym nameForHash role, st)
  else generateCounterBasedPseudonym st role

/-- `LegalPersonPseudonymizer.pseudonymize`. -/
def legalPseudonymize (st : LegalState) (originalText : String) : String × LegalState :=
  match parsePersonInfo originalText with
  | some (name, role) =>
    if role ≠ "" then generateRoleBasedPseudonym st name role
    else generateCounterBasedPseudonym st "person"
  | none => generateCounterBasedPseudonym st "person"

/-- `LegalPersonPseudonymizer.get_replacement` (the overriding version). -/
def legalGetReplacement (st : LegalState) (originalText : String) : String × LegalState :=
  match st.cache.lookup originalText with
  | some v => (v, st)
  | none =>
    let (replacement, st') :=
      match st.currentEntity with
      | some ent =>
        if ent.isPersonEntity then generateRoleBasedPseudonymFromEntity st ent
        else
          match findMatchingRole st.registry (pyStrip originalText) with
          | some matchedRole => generateRoleBasedPseudonym st originalText matchedRole
          | none => legalPseudonymize st originalText
      | none =>
        match findMatchingRole st.registry (pyStrip originalText) with
        | some matchedRole => generateRoleBasedPseudonym st originalText matchedRole
        | none => legalPseudonymize st originalText
    (replacement, { st' with cache := st'.cache ++ [(originalText, replacement)] })

/-! ## Counter-based and GPE pseudonymizers -/

/-- State of a `CounterBasedPseudonymizer(prefix, use_hash=True)`. -/
structure CtrState where
  counter : Nat := 0
  cache : List (String × String) := []
deriving DecidableEq, Repr

/-- `CounterBasedPseudonymizer.pseudonymize` (salt is
`f"{prefix.lower()}_pseudonyms_2024"`). -/
def counterPseudonymize (pre : String) (useHash : Bool) (st : CtrState)
    (originalText : String) : String × CtrState :=
  if useHash then
    let salt := strLower pre ++ "_pseudonyms_2024"
    let hashHex := hexdigest (strBytes (salt ++ ":" ++ originalText))
    (pre ++ " " ++ letterChr (hexVal (hashHex.take 2) % 26), st)
  else
    let c := st.counter + 1
    (pre ++ " " ++ letterChr ((c - 1) % 26), { st with counter := c })

def counterGetReplacement (pre : String) (useHash : Bool) (st : CtrState)
    (originalText : String) : String × CtrState :=
  match st.cache.lookup originalText with
  | some v => (v, st)
  | none =>
    let (r, st') := counterPseudonymize pre useHash st originalText
    (r, { st' with cache := st'.cache ++ [(originalText, r)] })

/-- `GPEPseudonymizer._load_countries`. -/
def gpeCountries : List String :=
  ["Singapore", "Malaysia", "Thailand", "Indonesia", "Philippines",
   "Vietnam", "Myanmar", "Cambodia", "Laos", "Brunei",
   "China", "Japan", "South Korea", "Taiwan", "Hong Kong", "Macau",
   "India", "Pakistan", "Bangladesh", "Sri Lanka", "Nepal",
   "United States", "USA", "US", "United Kingdom", "UK", "Canada",
   "Australia", "New Zealand", "Germany", "France", "Italy", "Spain"]

/-- `GPEPseudonymizer._load_states`. -/
def gpeStates : List String :=
  ["Delaware", "California", "New York", "Texas", "Florida",
   "Johor", "Selangor", "Penang", "Sabah", "Sarawak",
   "Jakarta", "West Java", "Bangkok", "Ontario", "Quebec"]

structure GPEState where
  counters : List (String × Nat) := [("COUNTRY", 0), ("STATE", 0), ("CITY", 0)]
  cache : List (String × String) := []
deriving DecidableEq, Repr

def gpeSalt : String := "gpe_pseudonyms_2024"

/-- `GPEPseudonymizer.pseudonymize` (use_hash=True in the pipeline). -/
def gpePseudonymize (useHash : Bool) (st : GPEState) (originalText : String) :
    String × GPEState :=
  let text := pyStrip originalText
  let category := if text ∈ gpeCountries then "COUNTRY"
    else if text ∈ gpeStates then "STATE" else "CITY"
  let pre := if text ∈ gpeCountries then "Country"
    else if text ∈ gpeStates then "State" else "City"
  if useHash then
    let hashHex := hexdigest (strBytes (gpeSalt ++ ":" ++ category ++ ":" ++ text))
    (pre ++ " " ++ letterChr (hexVal (hashHex.take 2) % 26), st)
  else
    let n := (st.counters.lookup category).getD 0 + 1
    (pre ++ " " ++ letterChr ((n - 1) % 26),
     { st with counters := st.counters.map (fun p => if p.1 = category then (p.1, n) else p) })

def gpeGetReplacement (useHash : Bool) (st : GPEState) (originalText : String) :
    String × GPEState :=
  match st.cache.lookup originalText with
  | some v => (v, st)
  | none =>
    let (r, st') := gpePseudonymize useHash st originalText
    (r, { st' with cache := st'.cache ++ [(originalText, r)] })

/-! ## Numeric parsing and formatting helpers (Python built-ins) -/

/-- Python `float(s)` on plain decimal strings (`float` strips whitespace;
sign/exponent forms never arise from the embedded matchers): `none` models a
`ValueError`. -/
def pyFloatQ (s : String) : Option ℚ :=
  let cs := (pyStrip s).data
  let intPart := cs.takeWhile Char.isDigit
  let rest := cs.drop intPart.length
  let intVal : ℚ := (intPart.foldl (fun acc c => 10 * acc + digitVal c) 0 : Nat)
  match rest with
  | [] => if intPart.isEmpty then none else some intVal
  | '.' :: fracPart =>
    if fracPart.all Char.isDigit ∧ (¬ intPart.isEmpty ∨ ¬ fracPart.isEmpty) then
      some (intVal + (fracPart.foldl (fun acc c => 10 * acc + digitVal c) 0 : Nat) /
        ((10 : ℚ) ^ fracPart.length))
    else none
  | _ => none

/-- Python `int(s)` on decimal strings. -/
def pyIntParse (s : String) : Option ℤ :=
  let cs := (pyStrip s).data
  match cs with
  | '-' :: ds =>
    if ¬ ds.isEmpty ∧ ds.all Char.isDigit then
      some (-(ds.foldl (fun acc c => 10 * acc + digitVal c) 0 : Nat))
    else none
  | ds =>
    if ¬ ds.isEmpty ∧ ds.all Char.isDigit then
      some ((ds.foldl (fun acc c => 10 * acc + digitVal c) 0 : Nat))
    else none

/-- Python `round(x)`: round half to even. -/
def pyRound (q : ℚ) : ℤ :=
  let f := ⌊q⌋
  let r := q - f
  if 2 * r < 1 then f
  else if 1 < 2 * r then f + 1
  else if f % 2 = 0 then f else f + 1

def commaGroupAux : Nat → List Char → List Char
  | _, [] => []
  | k, c :: rest =>
    if k = 3 then ',' :: c :: commaGroupAux 1 rest
    else c :: commaGroupAux (k + 1) rest

/-- Python `f"{n:,}"` for a natural number: thousands separators. -/
def commaFmtNat (n : Nat) : String :=
  String.mk ((commaGroupAux 0 (toString n).data.reverse).reverse)

def commaFmtInt (i : ℤ) : String :=
  if i < 0 then "-" ++ commaFmtNat i.natAbs else commaFmtNat i.natAbs

/-- Python `f"{v:.{places}f}"` (and the `:,.2f` variant with separators):
fixed-point rendering with round-half-even. -/
def fixedFmt (q : ℚ) (places : Nat) (commas : Bool) : String :=
  let scaled := pyRound (q * ((10 : ℚ) ^ places))
  let sign := if scaled < 0 then "-" else ""
  let digits := scaled.natAbs
  let whole := digits / 10 ^ places
  let frac := digits % 10 ^ places
  let wholeStr := if commas then commaFmtNat whole else toString whole
  if places = 0 then sign ++ wholeStr
  else sign ++ wholeStr ++ "." ++ natPad places frac

/-! ## Money (`MoneyPseudonymizer`)

The four `re.search` patterns of the handlers are implemented as leftmost
scans.  In `[\d,]+(?:\.\d{2})?` the mandatory part never consumes `.` or
whitespace, so the only regex backtracking that can occur is dropping the
optional decimal group; the matchers try both candidates in greedy order. -/

def currencyCodes : List String :=
  ["USD", "EUR", "GBP", "CAD", "AUD", "SGD", "HKD", "JPY", "CNY", "CHF", "SEK", "NOK", "DKK"]

/-- `MoneyPseudonymizer.currency_words`. -/
def currencyWords : List (String × String) :=
  [("USD", "Dollars"), ("EUR", "Euros"), ("GBP", "Pounds"), ("JPY", "Yen"),
   ("CNY", "Yuan"), ("CAD", "Canadian Dollars"), ("AUD", "Australian Dollars"),
   ("SGD", "Singapore Dollars"), ("HKD", "Hong Kong Dollars"),
   ("CHF", "Swiss Francs"), ("SEK", "Swedish Krona"), ("NOK", "Norwegian Krone"),
   ("DKK", "Danish Krone")]

/-- `MoneyPseudonymizer.currency_symbols` (present in the source;
unused by the handlers). -/
def currencySymbols : List (String × String) :=
  [("USD", "$"), ("EUR", "€"), ("GBP", "£"), ("JPY", "¥"), ("CNY", "¥"),
   ("CAD", "C$"), ("AUD", "A$"), ("SGD", "S$"), ("HKD", "HK$"),
   ("CHF", "CHF"), ("SEK", "kr"), ("NOK", "kr"), ("DKK", "kr")]

/-- `[\d,]+(?:\.\d{2})?` candidates at the head of the input, greedy first:
each candidate is (matched characters, remaining characters). -/
def amountCandidates (cs : List Char) : List (List Char × List Char) :=
  let run := cs.takeWhile (fun c => c.isDigit ∨ c = ',')
  if run.isEmpty then []
  else
    let rest := cs.drop run.length
    match rest with
    | '.' :: d1 :: d2 :: rest' =>
      if d1.isDigit ∧ d2.isDigit then [(run ++ ['.', d1, d2], rest'), (run, rest)]
      else [(run, rest)]
    | _ => [(run, rest)]

/-- `(USD|EUR|...)\s+([\d,]+(?:\.\d{2})?)\s+\(([^)]*)\)` at one position. -/
def moneyFullAt (cs : List Char) : Option (String × String × String) :=
  currencyCodes.findSome? fun code =>
    match stripCI code cs with
    | some rest =>
      match parseWsp rest with
      | some rest' =>
        (amountCandidates rest').findSome? fun cand =>
          match parseWsp cand.2 with
          | some rest'' =>
            match rest'' with
            | '(' :: body =>
              let inner := body.takeWhile (fun c => c ≠ ')')
              if (body.drop inner.length).headD ' ' = ')' then
                some (code, String.mk cand.1, String.mk inner)
              else none
            | _ => none
          | none => none
      | none => none
    | none => none

/-- `(USD|EUR|...)\s+([\d,]+(?:\.\d{2})?)` at one position. -/
def moneyCodeAt (cs : List Char) : Option (String × String) :=
  currencyCodes.findSome? fun code =>
    match stripCI code cs with
    | some rest =>
      match parseWsp rest with
      | some rest' =>
        match amountCandidates rest' with
        | cand :: _ => some (code, String.mk cand.1)
        | [] => none
      | none => none
    | none => none

def moneySymbolChars : List Char := ['$', '€', '£', '¥', '₹', '₩', '₪', '₽', '¢']

/-- `([\$€£¥₹₩₪₽¢])\s*([\d,]+(?:\.\d{2})?)` at one position. -/
def moneySymbolAt (cs : List Char) : Option (String × String) :=
  match cs with
  | c :: rest =>
    if c ∈ moneySymbolChars then
      match amountCandidates (rest.dropWhile pyIsWs) with
      | cand :: _ => some (String.push "" c, String.mk cand.1)
      | [] => none
    else none
  | [] => none

/-- `(dollars?|euros?|pounds?|yen|yuan|francs?|krona|krone)` with
`re.IGNORECASE`; returns the matched word lowercased (the handler applies
`.lower()`). -/
def currencyWordAt (cs : List Char) : Option (String × List Char) :=
  [("dollar", true), ("euro", true), ("pound", true), ("yen", false),
   ("yuan", false), ("franc", true), ("krona", false), ("krone", false)].findSome?
    fun p =>
      match stripCI p.1 cs with
      | some rest =>
        if p.2 then
          match rest with
          | c :: rest' =>
            if c.toLower = 's' then some (p.1 ++ "s", rest') else some (p.1, rest)
          | [] => some (p.1, [])
        else some (p.1, rest)
      | none => none

/-- `([\d,]+(?:\.\d{2})?)\s+(dollars?|...)` at one position. -/
def moneyWrittenAt (cs : List Char) : Option (String × String) :=
  (amountCandidates cs).findSome? fun cand =>
    match parseWsp cand.2 with
    | some rest =>
      match currencyWordAt rest with
      | some (w, _) => some (String.mk cand.1, w)
      | none => none
    | none => none

def searchList {α : Type} (f : List Char → Option α) : List Char → Option α
  | [] => f []
  | c :: rest =>
    match f (c :: rest) with
    | some x => some x
    | none => searchList f rest

/-- `MoneyPseudonymizer._convert_hundreds` for values below 100. -/
def onesWords : List String :=
  ["", "One", "Two", "Three", "Four", "Five", "Six", "Seven", "Eight", "Nine",
   "Ten", "Eleven", "Twelve", "Thirteen", "Fourteen", "Fifteen", "Sixteen",
   "Seventeen", "Eighteen", "Nineteen"]

def tensWords : List String :=
  ["", "", "Twenty", "Thirty", "Forty", "Fifty", "Sixty", "Seventy", "Eighty", "Ninety"]

def convertTens (num : Nat) : String :=
  if num < 20 then onesWords.getD num ""
  else
    tensWords.getD (num / 10) "" ++
      (if num % 10 ≠ 0 then "-" ++ onesWords.getD (num % 10) "" else "")

/-- `MoneyPseudonymizer._convert_hundreds` (its single recursive call has a
remainder below 100, handled by `convertTens`). -/
def convertHundreds (num : Nat) : String :=
  if num = 0 then ""
  else if num < 100 then convertTens num
  else
    onesWords.getD (num / 100) "" ++ " Hundred" ++
      (if num % 100 > 0 then " " ++ convertTens (num % 100) else "")

/-- `MoneyPseudonymizer._number_to_written`. -/
def numberToWritten (amount : Nat) : String :=
  if amount = 0 then "Zero"
  else if amount ≥ 1000000000 then
    let billions := amount / 1000000000
    let remainder := amount % 1000000000
    convertHundreds billions ++ " Billion" ++
      (if remainder ≥ 1000000 then " " ++ convertHundreds (remainder / 1000000) ++ " Million"
       else "")
  else if amount ≥ 1000000 then
    let millions := amount / 1000000
    let remainder := amount % 1000000
    convertHundreds millions ++ " Million" ++
      (if remainder ≥ 1000 then " " ++ convertHundreds (remainder / 1000) ++ " Thousand"
       else "")
  else if amount ≥ 1000 then
    let thousands := amount / 1000
    let remainder := amount % 1000
    convertHundreds thousands ++ " Thousand" ++
      (if remainder > 0 then " " ++ convertHundreds remainder else "")
  else convertHundreds amount

/-! ### Random-draw plumbing

`random` module calls consume one value of an explicit `[0,1)` stream. -/

structure RngState where
  stream : Nat → ℚ
  cursor : Nat := 0

def rngNext (r : RngState) : ℚ × RngState :=
  (r.stream r.cursor, { r with cursor := r.cursor + 1 })

/-- `random.uniform(a, b)` = `a + (b - a) * random()`. -/
def randUniform (a b : ℚ) (r : RngState) : ℚ × RngState :=
  let (u, r') := rngNext r
  (a + (b - a) * u, r')

/-- `random.randint(lo, hi)` drawn from a `[0,1)` stream value. -/
def randIntRange (lo hi : Int) (r : RngState) : Int × RngState :=
  let (u, r') := rngNext r
  (lo + ⌊u * ((hi - lo + 1 : Int) : ℚ)⌋, r')

/-- `random.choice` index into a list of the given length. -/
def randChoiceIdx (len : Nat) (r : RngState) : Nat × RngState :=
  let (u, r') := rngNext r
  ((⌊u * (len : ℚ)⌋).toNat, r')

/-- `NumberRandomizer.randomize_number` with its draw taken from the
stream (one draw per call, as in the source). -/
def randomizeNumberRng (value : ℚ) (preserveSmall : Bool) (r : RngState) : ℚ × RngState :=
  if preserveSmall = true ∧ 0 < value ∧ value ≤ 10 then
    let (i, r') := randChoiceIdx (smallPool value).length r
    (randomizeNumber value preserveSmall i 1, r')
  else
    let (m, r') := randUniform (mkRat 17 20) (mkRat 23 20) r
    (randomizeNumber value preserveSmall 0 m, r')

/-! ### The money handlers -/

/-- `MoneyPseudonymizer._handle_full_format`. -/
def moneyFullFmt (text : String) (r : RngState) : Option (String × RngState) :=
  match searchList moneyFullAt text.data with
  | some (currency, amountStr, _) =>
    let originalAmount := (pyFloatQ (String.mk (amountStr.data.filter (fun c => c ≠ ',')))).getD 0
    let (newAmount, r') := randomizeNumberRng originalAmount false r
    let newAmountInt := pyRound newAmount
    let formatted := commaFmtInt newAmountInt
    let written := numberToWritten newAmountInt.natAbs
    let currencyWord := (currencyWords.lookup currency).getD "Units"
    some (currency ++ " " ++ formatted ++ " (" ++ written ++ " " ++ currencyWord ++ ")", r')
  | none => none

/-- `MoneyPseudonymizer._handle_currency_code_format`. -/
def moneyCodeFmt (text : String) (r : RngState) : Option (String × RngState) :=
  match searchList moneyCodeAt text.data with
  | some (currency, amountStr) =>
    let cleanStr := String.mk (amountStr.data.filter (fun c => c ≠ ','))
    let originalAmount := (pyFloatQ cleanStr).getD 0
    let (newAmount, r') := randomizeNumberRng originalAmount false r
    let formatted :=
      if strContainsChar cleanStr '.' then fixedFmt newAmount 2 true
      else commaFmtInt (pyRound newAmount)
    some (currency ++ " " ++ formatted, r')
  | none => none

/-- `MoneyPseudonymizer._handle_symbol_format`. -/
def moneySymbolFmt (text : String) (r : RngState) : Option (String × RngState) :=
  match searchList moneySymbolAt text.data with
  | some (symbol, amountStr) =>
    let cleanStr := String.mk (amountStr.data.filter (fun c => c ≠ ','))
    let originalAmount := (pyFloatQ cleanStr).getD 0
    let (newAmount, r') := randomizeNumberRng originalAmount false r
    let formatted :=
      if strContainsChar cleanStr '.' then fixedFmt newAmount 2 true
      else commaFmtInt (pyRound newAmount)
    some (symbol ++ formatted, r')
  | none => none

/-- `MoneyPseudonymizer._handle_written_format`. -/
def moneyWrittenFmt (text : String) (r : RngState) : Option (String × RngState) :=
  match searchList moneyWrittenAt text.data with
  | some (amountStr, currencyWord) =>
    let cleanStr := String.mk (amountStr.data.filter (fun c => c ≠ ','))
    let originalAmount := (pyFloatQ cleanStr).getD 0
    let (newAmount, r') := randomizeNumberRng originalAmount false r
    let formatted :=
      if strContainsChar cleanStr '.' then fixedFmt newAmount 2 true
      else commaFmtInt (pyRound newAmount)
    some (formatted ++ " " ++ currencyWord, r')
  | none => none

/-- `MoneyPseudonymizer.pseudonymize`. -/
def moneyPseudonymizeRng (originalText : String) (r : RngState) : String × RngState :=
  match moneyFullFmt originalText r with
  | some res => res
  | none =>
    match moneyCodeFmt originalText r with
    | some res => res
    | none =>
      match moneySymbolFmt originalText r with
      | some res => res
      | none =>
        match moneyWrittenFmt originalText r with
        | some res => res
        | none => ("[REDACTED AMOUNT]", r)

/-! ## Numbers (`NumberPseudonymizer`) -/

/-- `re.search(r'(\d+(?:\.\d+)?)\s+(\w+)', text)` at one position. -/
def unitMatchAt (cs : List Char) : Option (String × String) :=
  let run := cs.takeWhile Char.isDigit
  if run.isEmpty then none
  else
    let rest := cs.drop run.length
    let full :=
      match rest with
      | '.' :: ds =>
        let fs := ds.takeWhile Char.isDigit
        if fs.isEmpty then (run, rest) else (run ++ '.' :: fs, ds.drop fs.length)
      | _ => (run, rest)
    match parseWsp full.2 with
    | some rest' =>
      let w := rest'.takeWhile wordChar
      if w.isEmpty then none else some (String.mk full.1, String.mk w)
    | none => none

/-- `NumberPseudonymizer._handle_percentage`. -/
def numPercentFmt (text : String) (r : RngState) : String × RngState :=
  let numberStr := String.mk (text.data.dropLast)
  match pyFloatQ numberStr with
  | some originalValue =>
    let (newValue, r') := randomizeNumberRng originalValue false r
    if strContainsChar numberStr '.' then
      let decimalPlaces := ((strSplitOn numberStr ".").getD 1 "").length
      (fixedFmt newValue decimalPlaces false ++ "%", r')
    else (toString (pyRound newValue) ++ "%", r')
  | none => (text, r)

/-- `NumberPseudonymizer._handle_ratio`. -/
def numRatioFmt (text : String) (r : RngState) : String × RngState :=
  match strSplitOn text ":" with
  | [p1, p2] =>
    match pyFloatQ p1, pyFloatQ p2 with
    | some leftV, some rightV =>
      let (newLeft, r1) := randomizeNumberRng leftV true r
      let (newRight, r2) := randomizeNumberRng rightV true r1
      (toString (pyRound newLeft) ++ ":" ++ toString (pyRound newRight), r2)
    | _, _ => (text, r)
  | _ => (text, r)

/-- `NumberPseudonymizer._handle_fraction`. -/
def numFractionFmt (text : String) (r : RngState) : String × RngState :=
  match strSplitOn text "/" with
  | [p1, p2] =>
    match pyFloatQ p1, pyFloatQ p2 with
    | some numV, some denV =>
      let (newNum, r1) := randomizeNumberRng numV true r
      let (newDen, r2) := randomizeNumberRng denV true r1
      (toString (pyRound newNum) ++ "/" ++ toString (pyRound newDen), r2)
    | _, _ => (text, r)
  | _ => (text, r)

/-- `NumberPseudonymizer._handle_number_with_unit`. -/
def numUnitFmt (numberStr unit : String) (r : RngState) : String × RngState :=
  match pyFloatQ numberStr with
  | some originalValue =>
    let (newValue, r') := randomizeNumberRng originalValue false r
    if strLower unit ∈ ["years", "months", "weeks", "hours"] then
      (fixedFmt newValue 1 false ++ " " ++ unit, r')
    else (toString (pyRound newValue) ++ " " ++ unit, r')
  | none => (numberStr ++ " " ++ unit, r)

/-- `NumberPseudonymizer._handle_comma_number`. -/
def numCommaFmt (text : String) (r : RngState) : String × RngState :=
  match pyFloatQ (String.mk (text.data.filter (fun c => c ≠ ','))) with
  | some numberValue =>
    let (newValue, r') := randomizeNumberRng numberValue false r
    (commaFmtInt (pyRound newValue), r')
  | none => (text, r)

/-- `NumberPseudonymizer._handle_decimal`. -/
def numDecimalFmt (text : String) (r : RngState) : String × RngState :=
  match pyFloatQ text with
  | some originalValue =>
    let (newValue, r') := randomizeNumberRng originalValue false r
    let decimalPlaces := ((strSplitOn text ".").getD 1 "").length
    (fixedFmt newValue decimalPlaces false, r')
  | none => (text, r)

/-- `NumberPseudonymizer._handle_integer`. -/
def numIntegerFmt (text : String) (r : RngState) : String × RngState :=
  match pyIntParse text with
  | some originalValue =>
    let (newValue, r') := randomizeNumberRng (originalValue : ℚ) true r
    (toString (pyRound newValue), r')
  | none => (text, r)

/-- `NumberPseudonymizer.pseudonymize`. -/
def numberPseudonymizeRng (originalText : String) (r : RngState) : String × RngState :=
  let text := pyStrip originalText
  if strEndsWith text "%" then numPercentFmt text r
  else if strContainsChar text ':' then numRatioFmt text r
  else if strContainsChar text '/' then numFractionFmt text r
  else
    match searchList unitMatchAt text.data with
    | some (numberStr, unit) => numUnitFmt numberStr unit r
    | none =>
      if strContainsChar text ',' then numCommaFmt text r
      else if strContainsChar text '.' then numDecimalFmt text r
      else numIntegerFmt text r

/-! ## Pipeline orchestration (`PseudonymizationPipeline`, `pseudonymize_text`)

The extractors run in `_extract_all_entities` are taken as a list of
functions `String → List Entity` (each regex extractor is a pure function of
the text; the spaCy NER adapter is modelled the same way, per the external
NER capability of the design).  All pseudonymizer objects built in
`_initialize_pseudonymizers` live in one fresh `PipelineState`. -/

structure PipelineState where
  dateMapping : List (Int × Int) := []
  dateCache : List (String × String) := []
  org : OrgState := {}
  moneyCache : List (String × String) := []
  numberCache : List (String × String) := []
  addressCache : List (String × String) := []
  legal : LegalState := {}
  person : CtrState := {}
  gpe : GPEState := {}
  fac : CtrState := {}
  rng : RngState

/-- `DatePseudonymizer.prepare` with its `random.randint` draw taken from the
stream exactly when the source draws (a non-empty parsed date set). -/
def datePrepareRng (allEntities : List Entity) (r : RngState) :
    List (Int × Int) × RngState :=
  let dateEntities := allEntities.filter (fun e => e.label = "DATE")
  let parsedDates := dateEntities.filterMap (fun e => parseDate e.text)
  if dateEntities.isEmpty ∨ parsedDates.isEmpty then ([], r)
  else
    let (randomDays, r') := randIntRange (-7300) 7300 r
    (datePrepare allEntities randomDays, r')

/-- The `DATE` step of `_prepare_pseudonymizers`: call
`DatePseudonymizer.prepare` on the label's entities when non-empty. -/
def prepareDateStep (st : PipelineState) (allEntities : List Entity) : PipelineState :=
  if (allEntities.filter (fun e => e.label = "DATE")).isEmpty then st
  else
    { st with
        dateMapping :=
          (datePrepareRng (allEntities.filter (fun e => e.label = "DATE")) st.rng).1,
        rng := (datePrepareRng (allEntities.filter (fun e => e.label = "DATE")) st.rng).2 }

/-- `PseudonymizationPipeline._prepare_pseudonymizers`: each pseudonymizer's
`prepare` is called with only its own label's entities, when non-empty.  Only
`DatePseudonymizer` and `LegalPersonPseudonymizer` override the no-op base
`prepare`. -/
def preparePseudonymizers (st : PipelineState) (allEntities : List Entity) : PipelineState :=
  if (allEntities.filter (fun e => e.label = "LEGAL_PERSON")).isEmpty then
    prepareDateStep st allEntities
  else
    { prepareDateStep st allEntities with
        legal := legalPrepare (prepareDateStep st allEntities).legal
          (allEntities.filter (fun e => e.label = "LEGAL_PERSON")) }

/-- One substitution step of `_apply_pseudonymization`: dispatch
`get_replacement` on the entity's label (the nine pseudonymizer keys; other
labels are skipped).  `pseudonymizer._current_entity = entity` is modelled
for the legal-person pseudonymizer, the only object that reads it. -/
def applyEntity (st : PipelineState) (e : Entity) : Option String × PipelineState :=
  if e.label = "DATE" then
    match st.dateCache.lookup e.text with
    | some v => (some v, st)
    | none =>
      let r := datePseudonymize st.dateMapping e.text
      (some r, { st with dateCache := st.dateCache ++ [(e.text, r)] })
  else if e.label = "ORG" then
    let (r, org') := orgGetReplacement st.org e.text
    (some r, { st with org := org' })
  else if e.label = "MONEY" then
    match st.moneyCache.lookup e.text with
    | some v => (some v, st)
    | none =>
      let (r, rng') := moneyPseudonymizeRng e.text st.rng
      (some r, { st with moneyCache := st.moneyCache ++ [(e.text, r)], rng := rng' })
  else if e.label = "NUMBER" then
    match st.numberCache.lookup e.text with
    | some v => (some v, st)
    | none =>
      let (r, rng') := numberPseudonymizeRng e.text st.rng
      (some r, { st with numberCache := st.numberCache ++ [(e.text, r)], rng := rng' })
  else if e.label = "ADDRESS" then
    match st.addressCache.lookup e.text with
    | some v => (some v, st)
    | none =>
      let r := addressPseudonymize e.text
      (some r, { st with addressCache := st.addressCache ++ [(e.text, r)] })
  else if e.label = "LEGAL_PERSON" then
    let legal₀ := if e.isPersonEntity then { st.legal with currentEntity := some e } else st.legal
    let (r, legal') := legalGetReplacement legal₀ e.text
    (some r, { st with legal := legal' })
  else if e.label = "PERSON" then
    let (r, p') := counterGetReplacement "Person" true st.person e.text
    (some r, { st with person := p' })
  else if e.label = "GPE" then
    let (r, g') := gpeGetReplacement true st.gpe e.text
    (some r, { st with gpe := g' })
  else if e.label = "FAC" then
    let (r, f') := counterGetReplacement "Building" true st.fac e.text
    (some r, { st with fac := f' })
  else (none, st)

/-- `PseudonymizationPipeline._apply_pseudonymization`: process entities in
reverse start order, splice replacements into the text by character offsets,
and record `replacement_mapping[entity.text] = replacement`. -/
def applyPseudonymization (st : PipelineState) (text : String) (entities : List Entity) :
    String × List (String × String) × PipelineState :=
  (pySorted (fun a b => decide (b.start ≤ a.start)) entities).foldl
    (fun acc e =>
      match applyEntity acc.2.2 e with
      | (some replacement, st') =>
        (acc.1.take e.start ++ replacement ++ acc.1.drop e.stop,
         dictInsert acc.2.1 e.text replacement, st')
      | (none, st') => (acc.1, acc.2.1, st'))
    (text, [], st)

/-- `PseudonymizationPipeline.pseudonymize`. -/
def pipelinePseudonymize (extractors : List (String → List Entity))
    (st : PipelineState) (text : String) :
    String × List (String × String) × PipelineState :=
  if text = "" ∨ pyStrip text = "" then (text, [], st)
  else
    let allEntities := extractors.foldl (fun acc f => acc ++ f text) []
    let resolved := removeOverlaps allEntities
    let st' := preparePseudonymizers st resolved
    applyPseudonymization st' text resolved

/-- A freshly constructed `PseudonymizationPipeline`'s pseudonymizer state. -/
def initPipelineState (r : RngState) : PipelineState := { rng := r }

/-- `pseudonymize_text`: construct a fresh pipeline, then run it. -/
def pseudonymizeText (extractors : List (String → List Entity))
    (rng : RngState) (text : String) : String × List (String × String) :=
  let res := pipelinePseudonymize extractors (initPipelineState rng) text
  (res.1, res.2.1)

/-! ## A small regex engine (for `NumberExtractor`)

Backtracking matcher over character lists, with the constructs used by the
`NumberExtractor` patterns: character predicates, concatenation, ordered
alternation, greedy bounded repetition, word boundary `\b`, negative
lookahead `(?!...)` and fixed-width negative lookbehind `(?<!...)`.
Recursion is bounded by a fuel argument (every pattern used repeats only
non-nullable bodies, so a fuel linear in the text length is sufficient; the
fuel passed by `matchAt` below is far above that bound). -/

inductive Re where
  | eps : Re
  | pred (p : Char → Bool) : Re
  | cat (r1 r2 : Re) : Re
  | alt (r1 r2 : Re) : Re
  | rep (r : Re) (lo : Nat) (hi : Option Nat) : Re
  | wb : Re
  | laNeg (r : Re) : Re
  | lbNeg (width : Nat) (p : List Char → Bool) : Re

/-- CPS matcher: `pre` is the reversed consumed prefix (for `\b` and
lookbehind), `rest` the input ahead; the continuation receives both on
success.  Greedy repetition tries the longer match first, alternation tries
the left branch first — Python `re` backtracking order. -/
def mat : Nat → Re → List Char → List Char →
    (List Char → List Char → Option (List Char)) → Option (List Char)
  | 0, _, _, _, _ => none
  | fuel + 1, re, pre, rest, k =>
    match re with
    | .eps => k pre rest
    | .pred p =>
      match rest with
      | [] => none
      | c :: rest' => if p c then k (c :: pre) rest' else none
    | .cat r1 r2 => mat fuel r1 pre rest (fun pre' rest' => mat fuel r2 pre' rest' k)
    | .alt r1 r2 =>
      match mat fuel r1 pre rest k with
      | some res => some res
      | none => mat fuel r2 pre rest k
    | .rep r lo hi =>
      let more :=
        if hi = some 0 then none
        else
          mat fuel r pre rest (fun pre' rest' =>
            mat fuel (.rep r (lo - 1) (hi.map (· - 1))) pre' rest' k)
      match more with
      | some res => some res
      | none => if lo = 0 then k pre rest else none
    | .wb =>
      let prevW := match pre with | [] => false | c :: _ => wordChar c
      let nextW := match rest with | [] => false | c :: _ => wordChar c
      if prevW ≠ nextW then k pre rest else none
    | .laNeg r =>
      match mat fuel r pre rest (fun _ rest' => some rest') with
      | some _ => none
      | none => k pre rest
    | .lbNeg width p =>
      if (pre.take width).length = width ∧ p (pre.take width).reverse then none
      else k pre rest

def rchar (c : Char) : Re := .pred (fun x => x = c)
def rdigit : Re := .pred Char.isDigit
def rws : Re := .pred pyIsWs
def rstr (s : String) : Re := s.data.foldr (fun c acc => .cat (rchar c) acc) .eps
def rstrCI (s : String) : Re :=
  s.data.foldr (fun c acc => .cat (.pred (fun x => x.toLower = c.toLower)) acc) .eps
def rfail : Re := .pred (fun _ => false)
def ralts (rs : List Re) : Re := rs.foldr .alt rfail
def ropt (r : Re) : Re := .rep r 0 (some 1)
def rplus (r : Re) : Re := .rep r 1 none
def rstar (r : Re) : Re := .rep r 0 none
def rrep (r : Re) (lo hi : Nat) : Re := .rep r lo (some hi)
def rcats (rs : List Re) : Re := rs.foldr .cat .eps

/-- Match `r` at position `i` of `text`; returns the match's end position. -/
def matchAt (r : Re) (text : List Char) (i : Nat) : Option Nat :=
  (mat (100 * (text.length + 10)) r (text.take i).reverse (text.drop i)
      (fun _ rest => some rest)).map
    (fun rest => text.length - rest.length)

def searchFromAux (r : Re) (text : List Char) : Nat → Nat → Option (Nat × Nat)
  | 0, _ => none
  | fuel + 1, i =>
    if i > text.length then none
    else
      match matchAt r text i with
      | some e => some (i, e)
      | none => searchFromAux r text fuel (i + 1)

/-- `re.search`: leftmost match as (start, end). -/
def searchRe (r : Re) (text : List Char) : Option (Nat × Nat) :=
  searchFromAux r text (text.length + 1) 0

def finditerAux (r : Re) (text : List Char) : Nat → Nat → List (Nat × Nat)
  | 0, _ => []
  | fuel + 1, pos =>
    match searchFromAux r text (text.length + 1 - pos) pos with
    | some (s, e) => (s, e) :: finditerAux r text fuel (if e > s then e else s + 1)
    | none => []

/-- `re.finditer`: successive non-overlapping leftmost matches. -/
def finditerRe (r : Re) (text : List Char) : List (Nat × Nat) :=
  finditerAux r text (text.length + 1) 0

/-! ### The `NumberExtractor` patterns -/

/-- `\b\d+(?:\.\d+)?%` (percentages). -/
def numPatPercent : Re :=
  rcats [.wb, rplus rdigit, ropt (.cat (rchar '.') (rplus rdigit)), rchar '%']

/-- `\b\d{1,3}(?:,\d{3})+(?!\s*(?:AD|BC|CE|BCE))\b` (comma-grouped numbers). -/
def numPatComma : Re :=
  rcats [.wb, rrep rdigit 1 3, rplus (.cat (rchar ',') (rrep rdigit 3 3)),
    .laNeg (.cat (rstar rws) (ralts [rstr "AD", rstr "BC", rstr "CE", rstr "BCE"])),
    .wb]

/-- `(?<!\d\.)\b\d+\.\d+(?![\.\d])\b` (decimal numbers). -/
def numPatDecimal : Re :=
  rcats [.lbNeg 2 (fun l => match l with | [a, b] => a.isDigit ∧ b = '.' | _ => false),
    .wb, rplus rdigit, rchar '.', rplus rdigit,
    .laNeg (.pred (fun c => c = '.' ∨ c.isDigit)), .wb]

/-- `\b\d+(?:\.\d+)?\s+(?:people|persons?|shares?|units?|times?|fold|percent|percentage|items?|pieces?|copies?)\b`
with `re.IGNORECASE` (numbers with units). -/
def numPatUnits : Re :=
  rcats [.wb, rplus rdigit, ropt (.cat (rchar '.') (rplus rdigit)), rplus rws,
    ralts [rstrCI "people", .cat (rstrCI "person") (ropt (rstrCI "s")),
      .cat (rstrCI "share") (ropt (rstrCI "s")), .cat (rstrCI "unit") (ropt (rstrCI "s")),
      .cat (rstrCI "time") (ropt (rstrCI "s")), rstrCI "fold", rstrCI "percent",
      rstrCI "percentage", .cat (rstrCI "item") (ropt (rstrCI "s")),
      .cat (rstrCI "piece") (ropt (rstrCI "s")), .cat (rstrCI "copie") (ropt (rstrCI "s"))],
    .wb]

/-- `(?<![\d\-\.])\b(?!(?:19|20)\d{2}\b)(?!\d{1,4}\s+(?:Street|Road|Avenue|Drive|Lane|Boulevard|St|Rd|Ave|Dr|Ln|Blvd))\d{2,6}(?![\d\-\.])\b`
(standalone integers). -/
def numPatStandalone : Re :=
  rcats [.lbNeg 1 (fun l => match l with | [a] => a.isDigit ∨ a = '-' ∨ a = '.' | _ => false),
    .wb,
    .laNeg (rcats [ralts [rstr "19", rstr "20"], rrep rdigit 2 2, .wb]),
    .laNeg (rcats [rrep rdigit 1 4, rplus rws,
      ralts [rstr "Street", rstr "Road", rstr "Avenue", rstr "Drive", rstr "Lane",
        rstr "Boulevard", rstr "St", rstr "Rd", rstr "Ave", rstr "Dr", rstr "Ln",
        rstr "Blvd"]]),
    rrep rdigit 2 6,
    .laNeg (.pred (fun c => c.isDigit ∨ c = '-' ∨ c = '.')), .wb]

/-- `\b\d+:\d+\b` (ratios). -/
def numPatRatioForm : Re := rcats [.wb, rplus rdigit, rchar ':', rplus rdigit, .wb]

/-- `\b\d+/\d+\b` (fractions). -/
def numPatFraction : Re := rcats [.wb, rplus rdigit, rchar '/', rplus rdigit, .wb]

/-- `NumberExtractor.number_patterns`, in source order. -/
def numberPatterns : List Re :=
  [numPatPercent, numPatComma, numPatDecimal, numPatUnits, numPatStandalone,
   numPatRatioForm, numPatFraction]

/-- `\b(?:19|20)\d{2}(?:\s*[-–]\s*(?:19|20)\d{2})?\b` (years). -/
def exclPatYears : Re :=
  rcats [.wb, ralts [rstr "19", rstr "20"], rrep rdigit 2 2,
    ropt (rcats [rstar rws, ralts [rchar '-', rchar '–'], rstar rws,
      ralts [rstr "19", rstr "20"], rrep rdigit 2 2]),
    .wb]

/-- `\b\d{1,2}[\.\/\-]\d{1,2}[\.\/\-](?:\d{2}|\d{4})\b` (dotted dates). -/
def exclPatDates : Re :=
  rcats [.wb, rrep rdigit 1 2, ralts [rchar '.', rchar '/', rchar '-'],
    rrep rdigit 1 2, ralts [rchar '.', rchar '/', rchar '-'],
    ralts [rrep rdigit 2 2, rrep rdigit 4 4], .wb]

/-- `[\+\(]?\d{1,4}[\)\s\-]?\d{3,4}[\s\-]?\d{3,4}` (phone numbers). -/
def exclPatPhone : Re :=
  rcats [ropt (ralts [rchar '+', rchar '(']), rrep rdigit 1 4,
    ropt (ralts [rchar ')', rws, rchar '-']), rrep rdigit 3 4,
    ropt (ralts [rws, rchar '-']), rrep rdigit 3 4]

/-- `\b\d{5,6}\b|\b[A-Z]{1,2}\d{1,2}[A-Z]?\s?\d[A-Z]{2}\b` (postal codes). -/
def exclPatPostal : Re :=
  .alt (rcats [.wb, rrep rdigit 5 6, .wb])
    (rcats [.wb, rrep (.pred Char.isUpper) 1 2, rrep rdigit 1 2,
      ropt (.pred Char.isUpper), ropt rws, rdigit, rrep (.pred Char.isUpper) 2 2, .wb])

/-- `(?:case|ref|no|number)[\.\s]*\d+` with `re.IGNORECASE` (case numbers). -/
def exclPatCaseRef : Re :=
  rcats [ralts [rstrCI "case", rstrCI "ref", rstrCI "no", rstrCI "number"],
    rstar (.pred (fun c => c = '.' ∨ pyIsWs c)), rplus rdigit]

/-- `NumberExtractor.exclusion_patterns`, in source order. -/
def exclusionPatterns : List Re :=
  [exclPatYears, exclPatDates, exclPatPhone, exclPatPostal, exclPatCaseRef]

/-- `NumberExtractor._should_exclude`: search the exclusion patterns over the
±20-character context window. -/
def shouldExclude (text : List Char) (start stop : Nat) : Bool :=
  let contextStart := start - 20
  let contextEnd := min text.length (stop + 20)
  let context := (text.take contextEnd).drop contextStart
  exclusionPatterns.any (fun p => (searchRe p context).isSome)

/-- `\b(?:years?|months?|weeks?|days?|hours?|minutes?|seconds?)\b` with
`re.IGNORECASE`. -/
def timeWordsRe : Re :=
  rcats [.wb,
    ralts [.cat (rstrCI "year") (ropt (rstrCI "s")), .cat (rstrCI "month") (ropt (rstrCI "s")),
      .cat (rstrCI "week") (ropt (rstrCI "s")), .cat (rstrCI "day") (ropt (rstrCI "s")),
      .cat (rstrCI "hour") (ropt (rstrCI "s")), .cat (rstrCI "minute") (ropt (rstrCI "s")),
      .cat (rstrCI "second") (ropt (rstrCI "s"))],
    .wb]

/-- The leftmost maximal digit run of a string (`re.search(r'\d+', text)`),
read as a number — the value `_is_valid_number` actually checks. -/
def leadDigitRunVal (s : String) : Nat :=
  ((s.data.dropWhile (fun c => ¬ c.isDigit)).takeWhile Char.isDigit).foldl
    (fun acc c => 10 * acc + digitVal c) 0

def hasDigit (s : String) : Bool := s.data.any Char.isDigit

/-- `NumberExtractor._is_valid_number`. -/
def isValidNumber (text : String) : Bool :=
  if (searchRe timeWordsRe text.data).isSome then false
  else if ¬ hasDigit text then false
  else if hasDigit text ∧ leadDigitRunVal text > 1000000 then false
  else true

/-- `EntityExtractor._overlaps_existing`. -/
def overlapsExisting (start stop : Nat) (entities : List Entity) : Bool :=
  entities.any (fun e => start < e.stop ∧ stop > e.start)

/-- The numeric value a number entity denotes, per the code's own parser
(`float(text.replace(',', ''))` in `_handle_comma_number`). -/
def commaStrippedVal (s : String) : Option ℚ :=
  pyFloatQ (String.mk (s.data.filter (fun c => c ≠ ',')))

/-- `NumberExtractor.extract`: run the seven patterns in order; keep a match
if the context does not exclude it, it overlaps no already-kept entity, and
`_is_valid_number` accepts the (stripped) matched text; sort by start. -/
def numberExtract (text : String) : List Entity :=
  let cs := text.data
  let entities := numberPatterns.foldl
    (fun acc p =>
      (finditerRe p cs).foldl
        (fun acc m =>
          let numberText := pyStrip (String.mk ((cs.take m.2).drop m.1))
          if ¬ shouldExclude cs m.1 m.2 ∧ ¬ overlapsExisting m.1 m.2 acc ∧
              isValidNumber numberText then
            acc ++ [mkEntity m.1 m.2 "NUMBER" numberText]
          else acc)
        acc)
    []
  pySorted (fun a b => decide (a.start ≤ b.start)) entities

/-! ## Concrete verification scenarios -/

/-- Two accepted date spans ("3 May 2021", "15 August 2021"), 104 days
apart. -/
def demoDateEntities : List Entity :=
  [mkEntity 3 13 "DATE" "3 May 2021", mkEntity 20 34 "DATE" "15 August 2021"]

/-- The cross-reference scenario document: a role-qualified first mention and
a later bare mention of the same name. -/
def c2Text : String := "Carlos Rivera (\"Defendant\") appeared. Carlos Rivera left."

/-- The span the legal-person extractor produces for
`Carlos Rivera ("Defendant")` (pattern 1, `Name (Role)`): a `PersonEntity`
whose `role` is `_normalize_role('"Defendant"')`. -/
def c2Qualified : Entity :=
  { start := 0, stop := 27, label := "LEGAL_PERSON",
    text := "Carlos Rivera (\"Defendant\")", isPersonEntity := true,
    role := some (normalizeRoleExtractor "\"Defendant\"") }

/-- The later bare mention, tagged `PERSON` by the NER adapter. -/
def c2Bare : Entity := mkEntity 38 51 "PERSON" "Carlos Rivera"

/-- The extraction layer for the scenario: the legal-person extractor's
output and the NER adapter's output as fixed functions. -/
def c2Extractors : List (String → List Entity) :=
  [fun _ => [c2Qualified], fun _ => [c2Bare]]

/-- A zero random stream (the scenario draws nothing: no dates, money or
numbers). -/
def zeroRng : RngState := { stream := fun _ => 0 }

end Pseudo

/-! # Theorems and helper lemmas -/

namespace Pseudo

/-! ## Sorting lemmas -/

theorem mem_insertSorted {α : Type} {le : α → α → Bool} {x y : α} :
    ∀ {l : List α}, y ∈ insertSorted le x l ↔ y = x ∨ y ∈ l := by
  intro l
  induction l with
  | nil => simp [insertSorted]
  | cons a rest ih =>
    simp only [insertSorted]
    split
    · simp [List.mem_cons]
    · simp only [List.mem_cons, ih]
      tauto

theorem mem_pySorted {α : Type} {le : α → α → Bool} {y : α} :
    ∀ {l : List α}, y ∈ pySorted le l ↔ y ∈ l := by
  intro l
  induction l with
  | nil => simp [pySorted]
  | cons a rest ih =>
    simp only [pySorted, mem_insertSorted, List.mem_cons, ih]

theorem pairwise_insertSorted {α : Type} {le : α → α → Bool}
    (htotal : ∀ a b, le a b = true ∨ le b a = true)
    (htrans : ∀ a b c, le a b = true → le b c = true → le a c = true) (x : α) :
    ∀ {l : List α}, l.Pairwise (fun a b => le a b = true) →
      (insertSorted le x l).Pairwise (fun a b => le a b = true) := by
  intro l
  induction l with
  | nil => intro _; simp [insertSorted]
  | cons a rest ih =>
    intro hpw
    rcases List.pairwise_cons.mp hpw with ⟨ha, hrest⟩
    simp only [insertSorted]
    split
    · rename_i hxa
      refine List.pairwise_cons.mpr ⟨?_, hpw⟩
      intro b hb
      rcases List.mem_cons.mp hb with h' | h'
      · exact h' ▸ hxa
      · exact htrans x a b hxa (ha b h')
    · rename_i hxa
      refine List.pairwise_cons.mpr ⟨?_, ih hrest⟩
      intro b hb
      rcases mem_insertSorted.mp hb with h' | h'
      · rw [h']
        rcases htotal x a with h | h
        · exact absurd h hxa
        · exact h
      · exact ha b h'

theorem pairwise_pySorted {α : Type} {le : α → α → Bool}
    (htotal : ∀ a b, le a b = true ∨ le b a = true)
    (htrans : ∀ a b c, le a b = true → le b c = true → le a c = true) :
    ∀ (l : List α), (pySorted le l).Pairwise (fun a b => le a b = true) := by
  intro l
  induction l with
  | nil => simp [pySorted]
  | cons a rest ih => exact pairwise_insertSorted htotal htrans a ih

/-! ## Overlap resolution: the non-overlap invariant (C3) -/

theorem mem_resolveAgainst {x e : Entity} : ∀ {r : List Entity},
    x ∈ resolveAgainst e r → x ∈ r ∨ x = e := by
  intro r
  induction r with
  | nil => intro h; simp [resolveAgainst] at h; exact Or.inr h
  | cons a rest ih =>
    intro h
    simp only [resolveAgainst] at h
    split at h
    · split at h
      · rcases List.mem_cons.mp h with h' | h'
        · exact Or.inr h'
        · exact Or.inl (List.mem_cons_of_mem a h')
      · split at h
        · rcases List.mem_cons.mp h with h' | h'
          · exact Or.inr h'
          · exact Or.inl (List.mem_cons_of_mem a h')
        · exact Or.inl h
    · rcases List.mem_cons.mp h with h' | h'
      · exact Or.inl (h' ▸ List.mem_cons_self a rest)
      · rcases ih h' with h'' | h''
        · exact Or.inl (List.mem_cons_of_mem a h'')
        · exact Or.inr h''

theorem pairwise_resolveAgainst {e : Entity} : ∀ {r : List Entity},
    r.Pairwise (fun s1 s2 => ¬(s1.start < s2.stop ∧ s1.stop > s2.start)) →
    (∀ a ∈ r, a.start ≤ e.start) →
    (resolveAgainst e r).Pairwise (fun s1 s2 => ¬(s1.start < s2.stop ∧ s1.stop > s2.start)) := by
  intro r
  induction r with
  | nil => intro _ _; simp [resolveAgainst]
  | cons a rest ih =>
    intro hpw hb
    rcases List.pairwise_cons.mp hpw with ⟨ha, hrest⟩
    simp only [resolveAgainst]
    split
    · rename_i hov
      have hrepl : (e :: rest).Pairwise
          (fun s1 s2 => ¬(s1.start < s2.stop ∧ s1.stop > s2.start)) := by
        refine List.pairwise_cons.mpr ⟨?_, hrest⟩
        intro b hbmem hovb
        have hab : a.start < b.stop ∧ a.stop > b.start := by
          constructor
          · calc a.start ≤ e.start := hb a (List.mem_cons_self a rest)
              _ < b.stop := hovb.1
          · calc b.start ≤ e.start := hb b (List.mem_cons_of_mem a hbmem)
              _ < a.stop := hov.1
        exact ha b hbmem hab
      split
      · exact hrepl
      · split
        · exact hrepl
        · exact hpw
    · rename_i hov
      refine List.pairwise_cons.mpr ⟨?_, ih hrest (fun b hbm => hb b (List.mem_cons_of_mem a hbm))⟩
      intro b hbmem
      rcases mem_resolveAgainst hbmem with h' | h'
      · exact ha b h'
      · subst h'
        intro hc
        exact hov ⟨hc.2, hc.1⟩

theorem foldl_resolve_pairwise : ∀ (l acc : List Entity),
    l.Pairwise (fun a b => a.start ≤ b.start) →
    acc.Pairwise (fun s1 s2 => ¬(s1.start < s2.stop ∧ s1.stop > s2.start)) →
    (∀ a ∈ acc, ∀ x ∈ l, a.start ≤ x.start) →
    (l.foldl (fun result e => resolveAgainst e result) acc).Pairwise
      (fun s1 s2 => ¬(s1.start < s2.stop ∧ s1.stop > s2.start)) := by
  intro l
  induction l with
  | nil => intro acc _ hacc _; exact hacc
  | cons e l' ih =>
    intro acc hsorted hacc hbound
    rcases List.pairwise_cons.mp hsorted with ⟨he, hl'⟩
    simp only [List.foldl_cons]
    refine ih (resolveAgainst e acc) hl' ?_ ?_
    · exact pairwise_resolveAgainst hacc
        (fun a ha => hbound a ha e (List.mem_cons_self e l'))
    · intro a ha x hx
      rcases mem_resolveAgainst ha with h' | h'
      · exact hbound a h' x (List.mem_cons_of_mem e hx)
      · exact h' ▸ he x hx

/-- C3.  Non-overlap invariant: the span set returned by
`PseudonymizationPipeline._remove_overlaps` contains no two spans `s1`, `s2`
with `s1.start < s2.end and s1.end > s2.start` — at most one winning span per
character range.  (The overlap relation is symmetric, so the `Pairwise`
statement covers every unordered pair of distinct positions.) -/
theorem remove_overlaps_non_overlapping (entities : List Entity) :
    (removeOverlaps entities).Pairwise
      (fun s1 s2 => ¬(s1.start < s2.stop ∧ s1.stop > s2.start)) := by
  unfold removeOverlaps
  split
  · rename_i h
    rw [List.isEmpty_iff.mp h]
    exact List.Pairwise.nil
  · refine foldl_resolve_pairwise _ [] ?_ List.Pairwise.nil (by simp)
    have := @pairwise_pySorted Entity (fun a b => decide (a.start ≤ b.start))
      (fun a b => by
        simp only [decide_eq_true_eq]
        omega)
      (fun a b c hab hbc => by
        simp only [decide_eq_true_eq] at *
        omega)
      entities
    exact this.imp (by intro a b h; simpa using h)

/-! ## Date-interval preservation (C1) -/

theorem lookup_map_self {f : Int → Int} : ∀ {l : List Int} {d : Int}, d ∈ l →
    (l.map (fun x => (x, f x))).lookup d = some (f d) := by
  intro l
  induction l with
  | nil => intro d h; cases h
  | cons x xs ih =>
    intro d h
    by_cases hx : d = x
    · subst hx
      simp [List.lookup]
    · rcases List.mem_cons.mp h with h' | h'
      · exact absurd h' hx
      · simpa [List.lookup, beq_false_of_ne hx] using ih h'

theorem mem_parsedDatesOf {es : List Entity} {e : Entity} {d : Int}
    (hmem : e ∈ es) (hl : e.label = "DATE") (hp : parseDate e.text = some d) :
    d ∈ parsedDatesOf es := by
  unfold parsedDatesOf
  exact List.mem_filterMap.mpr ⟨e, List.mem_filter.mpr ⟨hmem, by simp [hl]⟩, hp⟩

theorem datePrepare_eq (es : List Entity) (r : Int) :
    datePrepare es r = dateMappingOfParsed (parsedDatesOf es) r := by
  unfold datePrepare parsedDatesOf
  dsimp only
  split
  · rename_i h
    rw [List.isEmpty_iff.mp h]
    simp [dateMappingOfParsed]
  · rfl

theorem mem_uniqueDatesOf {parsed : List Int} {d : Int} (hd : d ∈ parsed) :
    d ∈ uniqueDatesOf parsed := by
  rw [uniqueDatesOf, mem_pySorted, List.mem_dedup]
  exact hd

/-- C1.  Date interval preservation: for every document's accepted entity
set and every random draw, if two accepted `DATE` spans parse to calendar
dates `d1` and `d2`, then the date mapping built by
`DatePseudonymizer.prepare` assigns them replacements `m1`, `m2` with
`(m2 - m1).days == (d2 - d1).days` exactly. -/
theorem date_interval_preservation (es : List Entity) (randomDays : Int)
    (e1 e2 : Entity) (d1 d2 : Int)
    (h1 : e1 ∈ es) (hl1 : e1.label = "DATE") (hp1 : parseDate e1.text = some d1)
    (h2 : e2 ∈ es) (hl2 : e2.label = "DATE") (hp2 : parseDate e2.text = some d2) :
    ∃ m1 m2 : Int, (datePrepare es randomDays).lookup d1 = some m1 ∧
      (datePrepare es randomDays).lookup d2 = some m2 ∧ m2 - m1 = d2 - d1 := by
  have hd1 : d1 ∈ parsedDatesOf es := mem_parsedDatesOf h1 hl1 hp1
  have hd2 : d2 ∈ parsedDatesOf es := mem_parsedDatesOf h2 hl2 hp2
  rw [datePrepare_eq]
  set parsed := parsedDatesOf es with hparsed
  have hne : ¬ parsed.isEmpty := by
    cases hp : parsed with
    | nil => rw [hp] at hd1; cases hd1
    | cons a l => simp
  simp only [dateMappingOfParsed, if_neg hne]
  have hdu1 : d1 ∈ uniqueDatesOf parsed := mem_uniqueDatesOf hd1
  have hdu2 : d2 ∈ uniqueDatesOf parsed := mem_uniqueDatesOf hd2
  split
  · rename_i hlen
    rcases List.length_eq_one.mp hlen with ⟨a, ha⟩
    rw [ha] at hdu1 hdu2
    rcases List.mem_singleton.mp hdu1 with rfl
    rcases List.mem_singleton.mp hdu2 with h21
    refine ⟨dateAnchor + randomDays, dateAnchor + randomDays, ?_, ?_, by omega⟩
    · simp [ha, List.lookup]
    · simp [ha, h21, List.lookup]
  · refine ⟨_, _, lookup_map_self hdu1, lookup_map_self hdu2, by ring⟩

/-- Witness for C1: the two dates "3 May 2021" (day 18750) and
"15 August 2021" (day 18854) are 104 days apart, and so are their
replacements. -/
theorem date_interval_preservation_witness :
    ∃ m1 m2 : Int, (datePrepare demoDateEntities 42).lookup 18750 = some m1 ∧
      (datePrepare demoDateEntities 42).lookup 18854 = some m2 ∧
      m2 - m1 = 18854 - 18750 :=
  date_interval_preservation demoDateEntities 42
    (mkEntity 3 13 "DATE" "3 May 2021") (mkEntity 20 34 "DATE" "15 August 2021")
    18750 18854
    (by decide) (by decide) (by decide) (by decide) (by decide) (by decide)

/-! ## Unparseable dates (C6) and the sentinel for unmapped dates (C10) -/

theorem parsedDatesOf_insert (es₁ es₂ : List Entity) (e : Entity)
    (he : parseDate e.text = none) :
    parsedDatesOf (es₁ ++ e :: es₂) = parsedDatesOf (es₁ ++ es₂) := by
  unfold parsedDatesOf
  by_cases hl : e.label = "DATE" <;>
    simp [List.filter_append, List.filterMap_append, hl, List.filter_cons,
      List.filterMap_cons, he]

/-- C6.  Unparseable-date recovery: a date span whose text matches none of
the supported calendar formats is replaced by exactly
`"[UNPARSEABLE DATE: <original>]"` (`DatePseudonymizer.pseudonymize`), and it
contributes nothing to the document's interval mapping: `prepare` builds the
same `date_mapping` with or without the span, so every other span's
replacement is unchanged and the rest of the document is still
pseudonymized. -/
theorem unparseable_date_recovery (dateMapping : List (Int × Int)) (s : String)
    (hs : parseDate (pyStrip s) = none)
    (es₁ es₂ : List Entity) (e : Entity) (he : parseDate e.text = none)
    (randomDays : Int) :
    datePseudonymize dateMapping s = "[UNPARSEABLE DATE: " ++ s ++ "]" ∧
    datePrepare (es₁ ++ e :: es₂) randomDays = datePrepare (es₁ ++ es₂) randomDays := by
  constructor
  · unfold datePseudonymize
    rw [hs]
  · rw [datePrepare_eq, datePrepare_eq, parsedDatesOf_insert es₁ es₂ e he]

/-- Witness for C6: "sometime in 2020" parses against no supported format,
yields the sentinel, and adding such a span next to a real date changes the
mapping not at all. -/
theorem unparseable_date_recovery_witness :
    datePseudonymize [] "sometime in 2020" = "[UNPARSEABLE DATE: " ++ "sometime in 2020" ++ "]" ∧
    datePrepare ([mkEntity 3 13 "DATE" "3 May 2021"] ++ mkEntity 20 36 "DATE" "sometime in 2020" :: []) 7 =
      datePrepare ([mkEntity 3 13 "DATE" "3 May 2021"] ++ []) 7 :=
  unparseable_date_recovery [] "sometime in 2020" (by decide)
    [mkEntity 3 13 "DATE" "3 May 2021"] [] (mkEntity 20 36 "DATE" "sometime in 2020")
    (by decide) 7

/-- C10.  The sentinel is not restricted to genuinely unparseable text: if a
date string parses but its calendar date is not a key of the internal
`date_mapping` (for example `prepare` was never run, so the mapping is the
freshly initialised empty dict), `DatePseudonymizer.pseudonymize` still
returns `"[UNPARSEABLE DATE: <original>]"`. -/
theorem sentinel_for_unmapped_date (dateMapping : List (Int × Int)) (s : String)
    (d : Int) (hp : parseDate (pyStrip s) = some d)
    (hm : dateMapping.lookup d = none) :
    datePseudonymize dateMapping s = "[UNPARSEABLE DATE: " ++ s ++ "]" := by
  unfold datePseudonymize
  rw [hp]
  simp only [hm]

/-- Witness for C10: "14 February 2019" parses successfully (day 17941), yet
against the initial empty mapping the pseudonymizer emits the sentinel. -/
theorem sentinel_for_unmapped_date_witness :
    datePseudonymize [] "14 February 2019" = "[UNPARSEABLE DATE: " ++ "14 February 2019" ++ "]" :=
  sentinel_for_unmapped_date [] "14 February 2019" 17941 (by decide) (by decide)

/-! ## The shared randomization rule (C7) -/

theorem smallPool_mem_bounds {value : ℚ} {k : Nat} (hk : k ∈ smallPool value) :
    (1 ≤ k ∧ k ≤ 10) ∧ (k : ℤ) ≠ pyTruncInt value := by
  unfold smallPool at hk
  rcases List.mem_filter.mp hk with ⟨hr, hne⟩
  rcases List.mem_range'_1.mp hr with ⟨h1, h2⟩
  exact ⟨⟨h1, by omega⟩, by simpa using hne⟩

/-- C7.  The shared randomization rule (`NumberRandomizer.randomize_number`):
with `preserve_small=True` and `0 < v <= 10` the result is an integer in
`[1, 10]` different from `v` (a `random.choice` over the candidate list,
whose index is `choiceIdx`); otherwise the result is `v` multiplied by the
`random.uniform(0.85, 1.15)` factor `mult`, hence within ±15% of `v`. -/
theorem randomize_number_spec (value mult : ℚ) (preserveSmall : Bool) (choiceIdx : Nat)
    (hm1 : mkRat 85 100 ≤ mult) (hm2 : mult ≤ mkRat 115 100)
    (hidx : choiceIdx < (smallPool value).length) :
    (preserveSmall = true ∧ 0 < value ∧ value ≤ 10 →
      ∃ k : Nat, 1 ≤ k ∧ k ≤ 10 ∧
        randomizeNumber value preserveSmall choiceIdx mult = (k : ℚ) ∧ (k : ℚ) ≠ value) ∧
    (¬(preserveSmall = true ∧ 0 < value ∧ value ≤ 10) →
      randomizeNumber value preserveSmall choiceIdx mult = value * mult ∧
      |randomizeNumber value preserveSmall choiceIdx mult - value| ≤ mkRat 15 100 * |value|) := by
  constructor
  · intro hcase
    have hget : (smallPool value).getD choiceIdx 1 = (smallPool value).get ⟨choiceIdx, hidx⟩ := by
      rw [List.getD_eq_getElem?_getD, List.getElem?_eq_getElem hidx]
      rfl
    have hmem : (smallPool value).getD choiceIdx 1 ∈ smallPool value := by
      rw [hget]; exact List.get_mem _ _ _
    rcases smallPool_mem_bounds hmem with ⟨⟨hk1, hk2⟩, hkne⟩
    refine ⟨(smallPool value).getD choiceIdx 1, hk1, hk2, ?_, ?_⟩
    · unfold randomizeNumber
      rw [if_pos hcase]
    · intro heq
      refine hkne ?_
      unfold pyTruncInt
      rw [if_pos (le_of_lt hcase.2.1)]
      conv_rhs => rw [← heq]
      exact (Int.floor_natCast _).symm
  · intro hcase
    have hval : randomizeNumber value preserveSmall choiceIdx mult = value * mult := by
      unfold randomizeNumber
      rw [if_neg hcase]
    refine ⟨hval, ?_⟩
    rw [hval]
    have h85 : (85 : ℚ) / 100 ≤ mult := by rw [Rat.mkRat_eq_div] at hm1; push_cast at hm1; linarith
    have h115 : mult ≤ (115 : ℚ) / 100 := by rw [Rat.mkRat_eq_div] at hm2; push_cast at hm2; linarith
    have habs : |mult - 1| ≤ (15 : ℚ) / 100 := by
      rw [abs_le]
      constructor <;> linarith
    have hmk : mkRat 15 100 = (15 : ℚ) / 100 := by rw [Rat.mkRat_eq_div]; push_cast; ring
    calc |value * mult - value| = |value| * |mult - 1| := by
          rw [← abs_mul]; ring_nf
      _ ≤ |value| * ((15 : ℚ) / 100) := mul_le_mul_of_nonneg_left habs (abs_nonneg value)
      _ = mkRat 15 100 * |value| := by rw [hmk]; ring

/-- Witness for C7: at `v = 3` with `choiceIdx = 0` the small branch returns
an integer in `[1, 10]` different from 3; at `v = 1000,
preserve_small=False, mult = 1` the other branch returns `1000 * 1`, within
±15%. -/
theorem randomize_number_spec_witness :
    ((true = true ∧ (0 : ℚ) < 3 ∧ (3 : ℚ) ≤ 10 →
      ∃ k : Nat, 1 ≤ k ∧ k ≤ 10 ∧
        randomizeNumber 3 true 0 1 = (k : ℚ) ∧ (k : ℚ) ≠ 3) ∧
    (¬(true = true ∧ (0 : ℚ) < 3 ∧ (3 : ℚ) ≤ 10) →
      randomizeNumber 3 true 0 1 = 3 * 1 ∧
      |randomizeNumber 3 true 0 1 - 3| ≤ mkRat 15 100 * |(3 : ℚ)|)) ∧
    ((false = true ∧ (0 : ℚ) < 1000 ∧ (1000 : ℚ) ≤ 10 →
      ∃ k : Nat, 1 ≤ k ∧ k ≤ 10 ∧
        randomizeNumber 1000 false 0 1 = (k : ℚ) ∧ (k : ℚ) ≠ 1000) ∧
    (¬(false = true ∧ (0 : ℚ) < 1000 ∧ (1000 : ℚ) ≤ 10) →
      randomizeNumber 1000 false 0 1 = 1000 * 1 ∧
      |randomizeNumber 1000 false 0 1 - 1000| ≤ mkRat 15 100 * |(1000 : ℚ)|)) :=
  ⟨randomize_number_spec 3 1 true 0 (by decide) (by decide) (by decide),
   randomize_number_spec 1000 1 false 0 (by decide) (by decide) (by decide)⟩

/-! ## Organization replacement format (C5) -/

/-- C5, counterexample: on a fresh pseudonymizer the bank entity
`"DBS Bank Ltd, Raffles Place Branch"` is replaced by plain `"ORG A"` — no
known suffix matches the trailing "Branch" clause (nothing strips it), and no
`"Bank <Letter> <suffix>, Location <Letter> Branch"` form exists in the
code's output. -/
theorem org_bank_branch_counterexample :
    (orgGetReplacement {} "DBS Bank Ltd, Raffles Place Branch").1 = "ORG A" ∧
    extractCorporateSuffix "DBS Bank Ltd, Raffles Place Branch" = "" ∧
    ("ORG A").take 4 ≠ "Bank" := by
  decide

theorem find_first_longest {pred : String → Bool} : ∀ {l : List String} {sfx : String},
    l.Pairwise (fun a b => b.length ≤ a.length) → l.find? pred = some sfx →
    ∀ s' ∈ l, pred s' = true → s'.length ≤ sfx.length := by
  intro l
  induction l with
  | nil => intro sfx _ hfind; cases hfind
  | cons a rest ih =>
    intro sfx hpw hfind s' hs' hpred
    rcases List.pairwise_cons.mp hpw with ⟨ha, hrest⟩
    by_cases hpa : pred a
    · rw [List.find?_cons_of_pos _ hpa] at hfind
      injection hfind with hfind
      subst hfind
      rcases List.mem_cons.mp hs' with h' | h'
      · exact h' ▸ le_refl _
      · exact ha s' h'
    · rw [List.find?_cons_of_neg _ hpa] at hfind
      rcases List.mem_cons.mp hs' with h' | h'
      · exact absurd (h' ▸ hpred) (by simpa using hpa)
      · exact ih hrest hfind s' h' hpred

theorem sortedSuffixes_length_sorted :
    sortedSuffixes.Pairwise (fun a b => b.length ≤ a.length) := by
  decide

/-- C5, amended.  `OrganizationPseudonymizer.get_replacement`: a cached
organization returns its cached value with the state untouched; a new
organization increments the counter and is replaced by
`"ORG <Letter> <suffix>"` (or bare `"ORG <Letter>"` when no suffix is
recognized), where the letter is the counter's sequential A–Z letter
(wrapping after Z) and the suffix is the longest corporate suffix matching
case-insensitively at the end of the punctuation-stripped text, preserved
verbatim from that text.  No bank/branch-specific form exists. -/
theorem org_pseudonymize_spec (st : OrgState) (t : String) :
    (∀ v, st.cache.lookup t = some v → orgGetReplacement st t = (v, st)) ∧
    (st.cache.lookup t = none →
      (orgGetReplacement st t).2.counter = st.counter + 1 ∧
      (orgGetReplacement st t).1 =
        (if extractCorporateSuffix t = "" then "ORG " ++ letterChr (st.counter % 26)
         else "ORG " ++ letterChr (st.counter % 26) ++ " " ++ extractCorporateSuffix t) ∧
      (extractCorporateSuffix t = "" ∨
        ∃ sfx ∈ corporateSuffixes,
          extractCorporateSuffix t =
            (cleanedOrgText t).drop ((cleanedOrgText t).length - sfx.length) ∧
          strEndsWith (strLower (cleanedOrgText t)) (strLower sfx) = true ∧
          ∀ s' ∈ corporateSuffixes,
            strEndsWith (strLower (cleanedOrgText t)) (strLower s') = true →
            s'.length ≤ sfx.length)) := by
  constructor
  · intro v hv
    simp [orgGetReplacement, hv]
  · intro hnone
    have hstep : orgGetReplacement st t =
        ((orgPseudonymize st t).1,
         { (orgPseudonymize st t).2 with
            cache := (orgPseudonymize st t).2.cache ++ [(t, (orgPseudonymize st t).1)] }) := by
      simp [orgGetReplacement, hnone]
    refine ⟨by rw [hstep]; simp [orgPseudonymize], ?_, ?_⟩
    · rw [hstep]
      by_cases hsfx : extractCorporateSuffix t = ""
      · simp [orgPseudonymize, hsfx]
      · simp [orgPseudonymize, hsfx]
    · by_cases hsfx : extractCorporateSuffix t = ""
      · exact Or.inl hsfx
      · refine Or.inr ?_
        unfold extractCorporateSuffix at hsfx ⊢
        cases hfind : sortedSuffixes.find?
            (fun sfx => strEndsWith (strLower (cleanedOrgText t)) (strLower sfx)) with
        | none => rw [hfind] at hsfx; exact absurd rfl hsfx
        | some sfx =>
          refine ⟨sfx, ?_, rfl, ?_, ?_⟩
          · have hmem := List.mem_of_find?_eq_some hfind
            rwa [sortedSuffixes, mem_pySorted] at hmem
          · have hpred := List.find?_some hfind
            exact hpred
          · intro s' hs' hpred
            exact find_first_longest sortedSuffixes_length_sorted hfind s'
              (by rw [sortedSuffixes, mem_pySorted]; exact hs') hpred

/-- Witness for C5 (amended): a fresh state replaces "Apple Inc" by
"ORG A Inc" with the counter advanced to 1, preserving the suffix "Inc". -/
theorem org_pseudonymize_spec_witness :
    (orgGetReplacement {} "Apple Inc").2.counter = 0 + 1 ∧
    (orgGetReplacement {} "Apple Inc").1 =
      (if extractCorporateSuffix "Apple Inc" = "" then "ORG " ++ letterChr (0 % 26)
       else "ORG " ++ letterChr (0 % 26) ++ " " ++ extractCorporateSuffix "Apple Inc") := by
  have h := (org_pseudonymize_spec {} "Apple Inc").2 (by decide)
  exact ⟨h.1, h.2.1⟩

/-! ## Address normalization (C4) -/

/-- The half of C4 the code does satisfy: the address code is a function of
the normalized address, so any two inputs with the same normalized form get
the identical `[ADDRESS NNNNNN]` code. -/
theorem address_code_of_normalized (a1 a2 : String)
    (h : normalizeAddress a1 = normalizeAddress a2) :
    addressPseudonymize a1 = addressPseudonymize a2 := by
  unfold addressPseudonymize
  rw [h]

/-- Witness for `address_code_of_normalized`: the same address with doubled
interior whitespace normalizes identically, hence same code. -/
theorem address_code_of_normalized_witness :
    addressPseudonymize "10 Anson Road, Singapore 079903" =
      addressPseudonymize "10  Anson Road,  Singapore 079903" :=
  address_code_of_normalized _ _ (by decide)

/-- C4.  The spec's particular example fails on the code: in
`_normalize_address` the abbreviation expansion `' rd ' -> ' road '` runs
before commas are removed, so in `"10 anson rd, singapore 079903"` the
pattern `" rd "` (space on both sides) never matches — the two example
addresses normalize differently and receive different `[ADDRESS NNNNNN]`
codes, contradicting the code's own test comment ("Should get same code
(normalized)"). -/
theorem address_rd_road_divergence :
    normalizeAddress "10 Anson Road, Singapore 079903" = "10 anson road singapore 079903" ∧
    normalizeAddress "10 Anson Rd, Singapore 079903" = "10 anson rd singapore 079903" ∧
    addressPseudonymize "10 Anson Road, Singapore 079903" = "[ADDRESS 725703]" ∧
    addressPseudonymize "10 Anson Rd, Singapore 079903" = "[ADDRESS 472271]" ∧
    addressPseudonymize "10 Anson Road, Singapore 079903" ≠
      addressPseudonymize "10 Anson Rd, Singapore 079903" := by
  decide

/-! ## Cross-reference consistency (C2) -/

/-- The mechanism behind C2's failure:
`PseudonymizationPipeline._prepare_pseudonymizers` hands each pseudonymizer
only the entities of its own label, so the `bare_persons` list computed
inside `LegalPersonPseudonymizer.prepare` (a filter for label `"PERSON"`) is
always empty and the cross-reference pre-seeding of `replacement_cache`
never runs. -/
theorem legal_prepare_prefiltered_cache (st : LegalState) (es : List Entity)
    (h : ∀ e ∈ es, e.label = "LEGAL_PERSON") : (legalPrepare st es).cache = st.cache := by
  unfold legalPrepare
  have hbare : es.filter (fun e => e.label = "PERSON") = [] := by
    rw [List.filter_eq_nil_iff]
    intro e he
    simp [h e he]
  rw [hbare]
  rfl

/-- The same fact at the pipeline level: preparing the pseudonymizers never
adds anything to the legal-person replacement cache. -/
theorem prepareDateStep_legal (st : PipelineState) (es : List Entity) :
    (prepareDateStep st es).legal = st.legal := by
  unfold prepareDateStep
  split
  · rfl
  · rfl

theorem pipeline_prepare_legal_cache (st : PipelineState) (es : List Entity) :
    (preparePseudonymizers st es).legal.cache = st.legal.cache := by
  unfold preparePseudonymizers
  split
  · rw [prepareDateStep_legal]
  · have hlabels : ∀ e ∈ es.filter (fun e => e.label = "LEGAL_PERSON"),
        e.label = "LEGAL_PERSON" :=
      fun e he => by simpa using (List.mem_filter.mp he).2
    show (legalPrepare (prepareDateStep st es).legal _).cache = st.legal.cache
    rw [legal_prepare_prefiltered_cache _ _ hlabels, prepareDateStep_legal]

/-- C2.  Cross-reference divergence on the spec's own scenario: with the
document `Carlos Rivera ("Defendant") appeared. Carlos Rivera left.`, the
qualified mention maps to `"Person O"` (its quoted role `'"defendant"'`
falls through `_normalize_role_for_pseudonym` to the `"Person"` bucket) and
the bare mention maps to `"Person T"` via the generic hash-based `PERSON`
pseudonymizer — two different values, neither of the claimed
`"Defendant <Letter>"` form. -/
theorem cross_reference_divergence :
    (pseudonymizeText c2Extractors zeroRng c2Text).2 =
      [("Carlos Rivera", "Person T"), ("Carlos Rivera (\"Defendant\")", "Person O")] ∧
    (pseudonymizeText c2Extractors zeroRng c2Text).1 =
      "Person O appeared. Person T left." ∧
    ("Person T" : String) ≠ "Person O" ∧
    ("Person T").take 9 ≠ "Defendant" ∧ ("Person O").take 9 ≠ "Defendant" := by
  decide

/-! ## Two-run determinism (C9) -/

/-- C9.  Two-run determinism: with a fixed salt (the constants baked into
the pseudonymizers), a fixed random stream, and the extractors (including
the NER adapter) given as fixed functions, two calls of
`PseudonymizationPipeline.pseudonymize` on the same text — each from a
freshly constructed pipeline, i.e. the initial pseudonymizer state — return
the same pseudonymized text and the same replacement mapping. -/
theorem two_run_determinism (extractors : List (String → List Entity))
    (rng : RngState) (text : String) (s1 s2 : PipelineState)
    (h1 : s1 = initPipelineState rng) (h2 : s2 = initPipelineState rng) :
    (pipelinePseudonymize extractors s1 text).1 = (pipelinePseudonymize extractors s2 text).1 ∧
    (pipelinePseudonymize extractors s1 text).2.1 =
      (pipelinePseudonymize extractors s2 text).2.1 := by
  subst h1
  subst h2
  exact ⟨rfl, rfl⟩

/-- Witness for C9: two fresh runs over the cross-reference scenario
document agree (both components evaluated on a concrete pipeline). -/
theorem two_run_determinism_witness :
    (pipelinePseudonymize c2Extractors (initPipelineState zeroRng) c2Text).1 =
      (pipelinePseudonymize c2Extractors (initPipelineState zeroRng) c2Text).1 ∧
    (pipelinePseudonymize c2Extractors (initPipelineState zeroRng) c2Text).2.1 =
      (pipelinePseudonymize c2Extractors (initPipelineState zeroRng) c2Text).2.1 :=
  two_run_determinism c2Extractors zeroRng c2Text _ _ rfl rfl

/-! ## Number extraction and the 1,000,000 bound (C8) -/

/-- C8, counterexample: the comma-grouped number `"2,000,000"` is extracted
as a `NUMBER` entity even though the value it denotes (by the code's own
parse, `float(text.replace(',', ''))`) is 2,000,000 > 1,000,000 —
`_is_valid_number` checks only the first digit run (`re.search(r'\d+')`),
which is `2` here. -/
theorem number_extractor_large_value :
    (numberExtract "2,000,000").map Entity.text = ["2,000,000"] ∧
    commaStrippedVal "2,000,000" = some 2000000 ∧
    leadDigitRunVal "2,000,000" = 2 ∧
    isValidNumber "2,000,000" = true := by
  decide

theorem isValidNumber_lead_bound {t : String} (h : isValidNumber t = true) :
    leadDigitRunVal t ≤ 1000000 := by
  unfold isValidNumber at h
  by_cases h1 : (searchRe timeWordsRe t.data).isSome = true
  · rw [if_pos h1] at h; cases h
  · rw [if_neg h1] at h
    by_cases h2 : ¬ hasDigit t = true
    · rw [if_pos h2] at h; cases h
    · rw [if_neg h2] at h
      by_cases h3 : hasDigit t = true ∧ leadDigitRunVal t > 1000000
      · rw [if_pos h3] at h; cases h
      · have hd : hasDigit t = true := not_not.mp h2
        by_contra hgt
        exact h3 ⟨hd, by omega⟩

theorem mem_numberExtract_valid {text : String} {e : Entity} :
    e ∈ numberExtract text → isValidNumber e.text = true := by
  unfold numberExtract
  intro hmem
  rw [mem_pySorted] at hmem
  have key : ∀ (ps : List Re) (acc : List Entity),
      (∀ x ∈ acc, isValidNumber x.text = true) →
      ∀ x ∈ ps.foldl (fun acc p =>
        (finditerRe p text.data).foldl
          (fun acc m =>
            let numberText := pyStrip (String.mk ((text.data.take m.2).drop m.1))
            if ¬ shouldExclude text.data m.1 m.2 ∧ ¬ overlapsExisting m.1 m.2 acc ∧
                isValidNumber numberText then
              acc ++ [mkEntity m.1 m.2 "NUMBER" numberText]
            else acc)
          acc) acc,
      isValidNumber x.text = true := by
    intro ps
    induction ps with
    | nil => intro acc hacc x hx; exact hacc x hx
    | cons p ps ihp =>
      intro acc hacc x hx
      refine ihp _ ?_ x hx
      have inner : ∀ (ms : List (Nat × Nat)) (acc₀ : List Entity),
          (∀ y ∈ acc₀, isValidNumber y.text = true) →
          ∀ y ∈ ms.foldl (fun acc m =>
            let numberText := pyStrip (String.mk ((text.data.take m.2).drop m.1))
            if ¬ shouldExclude text.data m.1 m.2 ∧ ¬ overlapsExisting m.1 m.2 acc ∧
                isValidNumber numberText then
              acc ++ [mkEntity m.1 m.2 "NUMBER" numberText]
            else acc) acc₀,
          isValidNumber y.text = true := by
        intro ms
        induction ms with
        | nil => intro acc₀ hacc₀ y hy; exact hacc₀ y hy
        | cons m ms ihm =>
          intro acc₀ hacc₀ y hy
          refine ihm _ ?_ y hy
          intro z hz
          dsimp only at hz
          split at hz
          · rename_i hcond
            rcases List.mem_append.mp hz with h' | h'
            · exact hacc₀ z h'
            · rcases List.mem_singleton.mp h' with rfl
              exact hcond.2.2
          · exact hacc₀ z hz
      exact inner _ acc hacc
  exact key numberPatterns [] (by intro x hx; cases hx) e hmem

/-- C8, amended.  What `NumberExtractor` actually guarantees: every entity
it returns has its *first run of consecutive digits* (the value
`_is_valid_number` inspects via `re.search(r'\d+')`), read as an integer, at
most 1,000,000 — rejecting bare 7+-digit identifiers, but not comma-grouped
values above 1,000,000. -/
theorem number_extract_lead_run_bound (text : String) :
    ∀ e ∈ numberExtract text, leadDigitRunVal e.text ≤ 1000000 :=
  fun _ he => isValidNumber_lead_bound (mem_numberExtract_valid he)

/-- Witness for C8 (amended): the entity extracted from "a 45% stake" has
leading digit run 45 ≤ 1,000,000. -/
theorem number_extract_lead_run_bound_witness :
    leadDigitRunVal "45%" ≤ 1000000 :=
  number_extract_lead_run_bound "a 45% stake" (mkEntity 2 5 "NUMBER" "45%") (by decide)

end Pseudo
